import Mathlib

/-!
Shallow embedding of the taxonomy-reconciliation and statistics engine of the
annotrieve backend (src/server/jobs/services/taxonomy.py and
src/server/jobs/services/stats.py), with proofs of the specification claims.

Document stores are modelled as lists of records keyed by taxid; MongoDB bulk
operations (set, addToSet, pullAll, delete, insert) are modelled as the
corresponding pure list transformations.  Leaf records (assemblies, genome
annotation records, organisms) enter only through their taxon_lineage arrays,
so a leaf collection is modelled as a list of lineages (lists of taxid
strings, species first, root last).
-/

/-- A persisted TaxonNode record: taxid is the unique key, children is the
materialized sequence of child taxids, plus the rollup counters (spec section
6; the db model module itself is outside src, its record shape is taken from
the spec's description of the persisted TaxonNode record). -/
structure TaxonNode where
  taxid : String
  scientific_name : Option String
  rank : String
  children : List String
  annotations_count : Nat
  assemblies_count : Nat
  organisms_count : Nat
deriving DecidableEq, Repr

/-- A TaxonNode candidate as constructed by the parser: empty children and
zero counters. -/
def TaxonNode.cand (taxid : String) (name : Option String) (rank : String) : TaxonNode :=
  ⟨taxid, name, rank, [], 0, 0, 0⟩

/-- A persisted Organism record. -/
structure Organism where
  taxid : String
  organism_name : Option String
  common_name : Option String
  taxon_lineage : List String
deriving DecidableEq, Repr

/-- Modelled from the spec: the OrganismToProcess class (jobs.services.classes)
is not under src; the spec describes the parser output as an Organism candidate
(taxid, names, lineage = [self] + ancestor ids in the order received) plus one
TaxonNode candidate per lineage element. -/
structure OrganismToProcess where
  taxid : String
  organism_name : Option String
  common_name : Option String
  taxon_lineage : List String
  parsed_taxon_lineage : List TaxonNode
deriving DecidableEq, Repr

/-- Modelled from the spec: OrganismToProcess.to_organism drops the parsed
taxon candidates and keeps the Organism candidate fields. -/
def OrganismToProcess.to_organism (o : OrganismToProcess) : Organism :=
  ⟨o.taxid, o.organism_name, o.common_name, o.taxon_lineage⟩

/-- Insertion step of an ascending sort of strings. -/
def insertAsc (a : String) : List String → List String
  | [] => [a]
  | b :: l => if b < a then b :: insertAsc a l else a :: b :: l

/-- Ascending sort of a list of strings, modelling the python builtin sorted
(strings compare lexicographically by code point in both languages). -/
def sortAsc : List String → List String
  | [] => []
  | a :: l => insertAsc a (sortAsc l)

/-- Insertion step of an ascending sort of integers. -/
def insertAscInt (a : ℤ) : List ℤ → List ℤ
  | [] => [a]
  | b :: l => if b < a then b :: insertAscInt a l else a :: b :: l

/-- Ascending sort of a list of integers, modelling the python builtin sorted. -/
def sortAscInt : List ℤ → List ℤ
  | [] => []
  | a :: l => insertAscInt a (sortAscInt l)

/-- Worker for create_batches: acc holds the current chunk reversed, b is the
remaining capacity of the current chunk, k is the capacity granted to every
later chunk. -/
def chunksGo (k : Nat) : List α → List α → Nat → List (List α)
  | [], acc, _ => if acc.isEmpty then [] else [acc.reverse]
  | a :: l, acc, 0 => acc.reverse :: chunksGo k l [a] (k - 1)
  | a :: l, acc, b + 1 => chunksGo k l (a :: acc) b

/-- Modelled from the spec: jobs.services.utils.create_batches is not under
src; the spec says inputs are partitioned into bounded consecutive batches of
size at most a fixed cap, so this chunks the list into runs of length at most
max k 1 (python callers always pass a positive batch size). -/
def create_batches (l : List α) (k : Nat) : List (List α) :=
  chunksGo (max k 1) l [] (max k 1)

/-- Consecutive (item, next item) pairs of a list.  For a lineage ordered from
species to root this yields the (child, parent) pairs read off by the loops of
taxonomy.py: child = lineage[i], parent = lineage[i + 1]. -/
def consecutivePairs : List α → List (α × α)
  | a :: b :: rest => (a, b) :: consecutivePairs (b :: rest)
  | _ => []

/-- All (child, parent) pairs implied by a list of lineages. -/
def lineagePairs (lins : List (List String)) : List (String × String) :=
  (lins.map consecutivePairs).flatten

/-- The distinct non-empty lineages of a leaf collection, as produced by the
project/match/group aggregation in rebuild_taxon_hierarchy_from_lineages. -/
def distinctLineages (lins : List (List String)) : List (List String) :=
  (lins.filter (fun lin => !lin.isEmpty)).dedup

/-- The (child, parent) pairs accumulated by the three streaming loops of
rebuild_taxon_hierarchy_from_lineages, over assembly, genome-annotation and
organism lineages. -/
def rebuildPairs (asmLins annLins orgLins : List (List String)) : List (String × String) :=
  lineagePairs (distinctLineages asmLins) ++ lineagePairs (distinctLineages annLins) ++
    lineagePairs (distinctLineages orgLins)

/-- The children list the rebuild computes for parent p: the set of child
taxids of pairs whose parent is p, materialized as sorted(list(set)). -/
def computedChildren (pairs : List (String × String)) (p : String) : List String :=
  sortAsc (((pairs.filter (fun pr => pr.2 == p)).map Prod.fst).dedup)

/-- Whether p is a key of the parent_to_children dictionary, i.e. has at least
one implied child. -/
def isParentIn (pairs : List (String × String)) (p : String) : Bool :=
  pairs.any (fun pr => pr.2 == p)

/-- One node's update in the rebuild: nodes that are keys of parent_to_children
get their children overwritten with the computed list, every other node gets
children cleared (the code clears only nodes whose stored children is
non-empty, which yields the same store). -/
def rebuildNode (pairs : List (String × String)) (n : TaxonNode) : TaxonNode :=
  if isParentIn pairs n.taxid then { n with children := computedChildren pairs n.taxid }
  else { n with children := [] }

/-- rebuild_taxon_hierarchy_from_lineages (taxonomy.py): streams the distinct
lineages of the three leaf collections, folds them into parent-to-children
pairs, then point-updates every stored taxon node. -/
def rebuild_taxon_hierarchy_from_lineages (asmLins annLins orgLins : List (List String))
    (store : List TaxonNode) : List TaxonNode :=
  store.map (rebuildNode (rebuildPairs asmLins annLins orgLins))

/-- Number of unwound lineage entries equal to t, i.e. the per-taxid count of
the unwind/group aggregation pipeline of stats.py. -/
def unwindCount (lins : List (List String)) (t : String) : Nat :=
  lins.flatten.count t

/-- update_taxon_nodes_counts (stats.py): writes the three rollup counters on
every taxon node, deletes the nodes whose annotations_count is 0, and pulls
the deleted taxids out of the children of every remaining node. -/
def update_taxon_nodes_counts (annLins asmLins orgLins : List (List String))
    (store : List TaxonNode) : List TaxonNode :=
  let counted := store.map (fun n =>
    { n with
      annotations_count := unwindCount annLins n.taxid,
      assemblies_count := unwindCount asmLins n.taxid,
      organisms_count := unwindCount orgLins n.taxid })
  let taxidsToDelete := (counted.filter (fun n => n.annotations_count == 0)).map (fun n => n.taxid)
  let kept := counted.filter (fun n => !(n.annotations_count == 0))
  kept.map (fun n => { n with children := n.children.filter (fun c => !(taxidsToDelete.contains c)) })

/-- Mongo modify with add_to_set__children, as issued by update_taxon_hierarchy:
on every node whose taxid is f, append c to children unless already present
(addToSet appends at the end and never reorders). -/
def add_to_set_children (store : List TaxonNode) (f c : String) : List TaxonNode :=
  store.map (fun n =>
    if n.taxid == f then
      if n.children.contains c then n else { n with children := n.children ++ [c] }
    else n)

/-- update_taxon_hierarchy (taxonomy.py): for each consecutive (child, father)
pair of the ordered taxon list, add the child taxid to the father's children
set. -/
def update_taxon_hierarchy (store : List TaxonNode) : List TaxonNode → List TaxonNode
  | child :: father :: rest =>
    update_taxon_hierarchy (add_to_set_children store father.taxid child.taxid) (father :: rest)
  | _ => store

/-- get_ordered_taxons (taxonomy.py): reload the lineage taxids from the taxon
store, keeping lineage order and silently dropping taxids that are not stored
(taxid is a unique key, so the first match is the match). -/
def get_ordered_taxons (store : List TaxonNode) (taxids : List String) : List TaxonNode :=
  taxids.filterMap (fun t => store.find? (fun n => n.taxid == t))

/-- Whether a list of taxids contains a repeated element. -/
def hasRepeat : List String → Bool
  | [] => false
  | a :: l => l.contains a || hasRepeat l

/-- Modelled from the spec: MongoDB bulk insert with taxid as the unique key
(spec section 6) raises a duplicate-key error iff some attempted taxid already
exists in the store or repeats within the attempted batch; the documents
inserted before the failure point are then removed again by the compensating
delete in the except branch, so a failed batch is modelled as a no-insert
followed by the compensating delete. -/
def insertConflict (existing : List String) (batchIds : List String) : Bool :=
  batchIds.any (fun t => existing.contains t) || hasRepeat batchIds

/-- Result of a save_organisms run: the organism store after the run, the
returned saved taxid list, and (as an observation of the printed error
branches, not of the return value) the id lists of the sub-batches whose
insert raised. -/
structure SaveOrganismsResult where
  store : List Organism
  saved : List String
  failedBatches : List (List String)
deriving DecidableEq, Repr

/-- The batch loop of save_organisms (taxonomy.py): a successful sub-batch is
inserted and its taxids extend the saved list; a failed sub-batch is discarded
and every organism whose taxid is in the attempted batch is deleted from the
store. -/
def save_organisms_run (store : List Organism) : List (List Organism) → SaveOrganismsResult
  | [] => ⟨store, [], []⟩
  | batch :: rest =>
    let ids := batch.map (fun o => o.taxid)
    if insertConflict (store.map (fun o => o.taxid)) ids then
      let r := save_organisms_run (store.filter (fun o => !(ids.contains o.taxid))) rest
      ⟨r.store, r.saved, ids :: r.failedBatches⟩
    else
      let r := save_organisms_run (store ++ batch) rest
      ⟨r.store, ids ++ r.saved, r.failedBatches⟩

/-- save_organisms (taxonomy.py): convert the candidates, batch them, and run
the insert loop against the organism store. -/
def save_organisms (store : List Organism) (organisms_to_process : List OrganismToProcess)
    (batch_size : Nat) : SaveOrganismsResult :=
  save_organisms_run store
    (create_batches (organisms_to_process.map OrganismToProcess.to_organism) batch_size)

/-- Result of a save_taxons run: both affected stores, the saved taxid list,
and the id lists of the failed sub-batches. -/
structure SaveTaxonsResult where
  taxonStore : List TaxonNode
  organismStore : List Organism
  saved : List String
  failedBatches : List (List String)
deriving DecidableEq, Repr

/-- The batch loop of save_taxons (taxonomy.py): on a failed sub-batch the
attempted taxon nodes are deleted from the taxon store and every organism
whose taxon_lineage references one of the attempted taxids is deleted from the
organism store. -/
def save_taxons_run (tstore : List TaxonNode) (ostore : List Organism) :
    List (List TaxonNode) → SaveTaxonsResult
  | [] => ⟨tstore, ostore, [], []⟩
  | batch :: rest =>
    let ids := batch.map (fun t => t.taxid)
    if insertConflict (tstore.map (fun t => t.taxid)) ids then
      let r := save_taxons_run (tstore.filter (fun t => !(ids.contains t.taxid)))
        (ostore.filter (fun o => !(o.taxon_lineage.any (fun t => ids.contains t)))) rest
      ⟨r.taxonStore, r.organismStore, r.saved, ids :: r.failedBatches⟩
    else
      let r := save_taxons_run (tstore ++ batch) ostore rest
      ⟨r.taxonStore, r.organismStore, ids ++ r.saved, r.failedBatches⟩

/-- The candidate-selection loop of save_taxons: walk the parsed taxon
candidates of every organism, skip taxids that are invalid (empty or the
literal string None), keep only taxids in newT (those not already stored), and
keep the first occurrence of each taxid (seen accumulates the kept taxids). -/
def uniqueNewTaxons (newT : List String) (seen : List String) :
    List TaxonNode → List TaxonNode
  | [] => []
  | t :: rest =>
    if t.taxid == "" || t.taxid == "None" then uniqueNewTaxons newT seen rest
    else if newT.contains t.taxid && !(seen.contains t.taxid) then
      t :: uniqueNewTaxons newT (t.taxid :: seen) rest
    else uniqueNewTaxons newT seen rest

/-- save_taxons (taxonomy.py): select the new, deduplicated taxon candidates,
batch them, and run the insert loop against the taxon and organism stores. -/
def save_taxons (tstore : List TaxonNode) (ostore : List Organism)
    (organisms_to_process : List OrganismToProcess) (batch_size : Nat) : SaveTaxonsResult :=
  let all_taxids := (organisms_to_process.map (fun o => o.taxon_lineage)).flatten
  let new_taxids := (all_taxids.filter
    (fun t => !((tstore.map (fun n => n.taxid)).contains t))).dedup
  let all_cands := (organisms_to_process.map (fun o => o.parsed_taxon_lineage)).flatten
  save_taxons_run tstore ostore (create_batches (uniqueNewTaxons new_taxids [] all_cands) batch_size)

/-- A raw ancestor element of the ENA browser XML: each attribute may be
absent.  The lxml element interface is modelled by its attribute lookups. -/
structure EnaElem where
  taxId : Option String
  scientificName : Option String
  rank : Option String
deriving DecidableEq, Repr

/-- A raw top-level taxon element of the ENA browser XML (a child of
TAXON_SET), carrying its ordered ancestor elements. -/
structure EnaTop where
  taxId : Option String
  scientificName : Option String
  commonName : Option String
  lineage : List EnaElem
deriving DecidableEq, Repr

/-- Python truthiness of an optional string attribute: absent and empty are
falsy. -/
def optMissing : Option String → Bool
  | none => true
  | some s => s == ""

/-- The rank fallback of the parser: rank gets the attribute value, with
absent or empty replaced by the string other. -/
def rankOrOther : Option String → String
  | none => "other"
  | some r => if r == "" then "other" else r

/-- The inner lineage loop of parse_taxons_and_organisms_from_ena_browser:
an ancestor with a falsy taxId, or whose scientificName equals root, is
skipped; every other ancestor appends its taxid to the candidate lineage and a
TaxonNode candidate to the parsed lineage. -/
def addAncestors (o : OrganismToProcess) : List EnaElem → OrganismToProcess
  | [] => o
  | lt :: rest =>
    if optMissing lt.taxId || lt.scientificName == some "root" then addAncestors o rest
    else addAncestors
      { o with
        taxon_lineage := o.taxon_lineage ++ [lt.taxId.getD ""],
        parsed_taxon_lineage :=
          o.parsed_taxon_lineage ++
            [TaxonNode.cand (lt.taxId.getD "") lt.scientificName (rankOrOther lt.rank)] }
      rest

/-- parse_taxons_and_organisms_from_ena_browser (taxonomy.py), on the stream
of top-level taxon elements: a top-level element with a falsy taxId is
skipped; every other yields one organism candidate whose lineage starts with
its own taxid (rank organism) followed by the kept ancestors in order. -/
def parse_taxons_and_organisms_from_ena_browser : List EnaTop → List OrganismToProcess
  | [] => []
  | e :: rest =>
    if optMissing e.taxId then parse_taxons_and_organisms_from_ena_browser rest
    else
      addAncestors ⟨e.taxId.getD "", e.scientificName, e.commonName, [e.taxId.getD ""],
        [TaxonNode.cand (e.taxId.getD "") e.scientificName "organism"]⟩ e.lineage ::
        parse_taxons_and_organisms_from_ena_browser rest

/-- Round-half-to-even to the nearest integer, the rounding rule of the python
builtin round (floats are idealized as exact rationals throughout). -/
def rhe (x : ℚ) : ℤ :=
  if x - ⌊x⌋ < 1 / 2 then ⌊x⌋
  else if 1 / 2 < x - ⌊x⌋ then ⌊x⌋ + 1
  else if ⌊x⌋ % 2 = 0 then ⌊x⌋ else ⌊x⌋ + 1

/-- round(x, 2): round-half-to-even at the second decimal. -/
def roundTo2 (x : ℚ) : ℚ :=
  (rhe (100 * x) : ℚ) / 100

/-- The integer part of the square root of a non-negative rational: for
x = p / q in lowest terms, the floor of sqrt x is the floor of
sqrt (p * q) / q. -/
def sqrtFloorQ (x : ℚ) : ℤ :=
  (Nat.sqrt (x.num.toNat * x.den) : ℤ) / (x.den : ℤ)

/-- round(math.sqrt x, 2) computed exactly on a non-negative rational: with
n the integer part of 100 * sqrt x, the result is n or n + 1 according to the
comparison of 100 * sqrt x with n + 1/2, squared to stay in the rationals
(ties resolved half-to-even, matching rhe). -/
def sqrtRound2 (x : ℚ) : ℚ :=
  let n : ℤ := sqrtFloorQ (10000 * x)
  let k : ℤ :=
    if 40000 * x < (((2 * n + 1) ^ 2 : ℤ) : ℚ) then n
    else if (((2 * n + 1) ^ 2 : ℤ) : ℚ) < 40000 * x then n + 1
    else if n % 2 = 0 then n else n + 1
  (k : ℚ) / 100

/-- The Mongo DistributionStats embedded record (spec section 6; the mean,
median and std fields are floats in the code, idealized as rationals, while
min, max and n come out of integer sample values). -/
structure DistributionStats where
  mean : ℚ
  median : ℚ
  std : ℚ
  min : ℤ
  max : ℤ
  n : Nat
deriving DecidableEq, Repr

/-- The arithmetic mean of a sample of integers, as a rational. -/
def meanOf (values : List ℤ) : ℚ :=
  ((values.map (fun x => (x : ℚ))).sum) / (values.length : ℚ)

/-- The median by the standard even/odd midpoint rule on the sorted sample
(spec side of the median claim, written from the spec sentence). -/
def medianOf (values : List ℤ) : ℚ :=
  let sorted := sortAscInt values
  let n := values.length
  if n % 2 = 1 then ((sorted.getD (n / 2) 0 : ℤ) : ℚ)
  else (((sorted.getD (n / 2 - 1) 0 : ℤ) : ℚ) + ((sorted.getD (n / 2) 0 : ℤ) : ℚ)) / 2

/-- The population variance of the sample about the exact arithmetic mean
(spec side of the standard-deviation claim: the standard population formula,
divide by n). -/
def popVariance (values : List ℤ) : ℚ :=
  ((values.map (fun x => ((x : ℚ) - meanOf values) ^ 2)).sum) / (values.length : ℚ)

/-- The variance the code actually divides by n: deviations are taken from the
already-rounded mean (stats.py computes mean = round(sum/n, 2) first and reuses
that rounded value inside the variance sum). -/
def roundedMeanVariance (values : List ℤ) : ℚ :=
  ((values.map (fun x => ((x : ℚ) - roundTo2 (meanOf values)) ^ 2)).sum) / (values.length : ℚ)

/-- compute_distribution_stats (stats.py): empty samples short-circuit to the
all-zero record before any division, min or max is evaluated; otherwise mean,
median and std are rounded to 2 decimals, with the variance taken about the
rounded mean, and min/max/n are exact integers. -/
def compute_distribution_stats (values : List ℤ) : DistributionStats :=
  match values with
  | [] => ⟨0, 0, 0, 0, 0, 0⟩
  | v :: vs =>
    let n := (v :: vs).length
    let mean := roundTo2 (meanOf (v :: vs))
    let sorted := sortAscInt (v :: vs)
    let median :=
      if n % 2 = 1 then roundTo2 ((sorted.getD (n / 2) 0 : ℚ))
      else roundTo2 (((sorted.getD (n / 2 - 1) 0 : ℚ) + (sorted.getD (n / 2) 0 : ℚ)) / 2)
    let variance := (((v :: vs).map (fun x => ((x : ℚ) - mean) ^ 2)).sum) / (n : ℚ)
    let std := sqrtRound2 variance
    ⟨mean, median, std, vs.foldl min v, vs.foldl max v, n⟩

/-- The claim's skip rule on ancestors, written from the spec sentence: an
ancestor element with a missing identifier or a name equal to the sentinel
root is skipped, every other ancestor contributes its identifier. -/
def keptAncestorId (lt : EnaElem) : Option String :=
  if optMissing lt.taxId || lt.scientificName == some "root" then none
  else some (lt.taxId.getD "")

/-- The TaxonNode candidate a kept ancestor contributes. -/
def keptAncestorNode (lt : EnaElem) : Option TaxonNode :=
  if optMissing lt.taxId || lt.scientificName == some "root" then none
  else some (TaxonNode.cand (lt.taxId.getD "") lt.scientificName (rankOrOther lt.rank))

theorem mem_insertAsc {a b : String} {l : List String} :
    b ∈ insertAsc a l ↔ b = a ∨ b ∈ l := by
  induction l with
  | nil => simp [insertAsc]
  | cons x t ih =>
    unfold insertAsc
    by_cases h : x < a
    · simp only [if_pos h, List.mem_cons, ih]
      tauto
    · simp only [if_neg h, List.mem_cons]

theorem mem_sortAsc {b : String} {l : List String} : b ∈ sortAsc l ↔ b ∈ l := by
  induction l with
  | nil => simp [sortAsc]
  | cons x t ih => simp [sortAsc, mem_insertAsc, ih]

theorem mem_consecutivePairs {c p : String} : ∀ lin : List String,
    ((c, p) ∈ consecutivePairs lin ↔ ∃ i : Nat, lin[i]? = some c ∧ lin[i + 1]? = some p)
  | [] => by simp [consecutivePairs]
  | [a] => by
    simp only [consecutivePairs, List.not_mem_nil, false_iff]
    rintro ⟨i, h1, h2⟩
    rcases i with _ | j <;> simp at h2
  | a :: b :: rest => by
    have ih := @mem_consecutivePairs c p (b :: rest)
    rw [consecutivePairs]
    constructor
    · intro h
      rcases List.mem_cons.mp h with h1 | h1
      · obtain ⟨rfl, rfl⟩ := Prod.mk.injEq .. |>.mp h1.symm
        exact ⟨0, by simp, by simp⟩
      · obtain ⟨j, hj1, hj2⟩ := ih.mp h1
        exact ⟨j + 1, by simpa using hj1, by simpa using hj2⟩
    · rintro ⟨i, h1, h2⟩
      rcases i with _ | j
      · simp only [List.getElem?_cons_zero, Option.some.injEq] at h1
        simp only [List.getElem?_cons_succ, List.getElem?_cons_zero, Option.some.injEq] at h2
        subst h1
        subst h2
        exact List.mem_cons_self _ _
      · refine List.mem_cons_of_mem _ (ih.mpr ⟨j, ?_, ?_⟩)
        · simpa using h1
        · simpa using h2

theorem mem_lineagePairs {L : List (List String)} {pr : String × String} :
    pr ∈ lineagePairs (distinctLineages L) ↔ ∃ lin ∈ L, pr ∈ consecutivePairs lin := by
  unfold lineagePairs distinctLineages
  rw [List.mem_flatten]
  constructor
  · rintro ⟨l, hl, hpr⟩
    obtain ⟨lin, hlin, rfl⟩ := List.mem_map.mp hl
    exact ⟨lin, (List.mem_filter.mp (List.mem_dedup.mp hlin)).1, hpr⟩
  · rintro ⟨lin, hmem, hpr⟩
    refine ⟨consecutivePairs lin, List.mem_map.mpr ⟨lin, ?_, rfl⟩, hpr⟩
    refine List.mem_dedup.mpr (List.mem_filter.mpr ⟨hmem, ?_⟩)
    cases lin with
    | nil => simp [consecutivePairs] at hpr
    | cons a t => simp

theorem mem_rebuildPairs {asmLins annLins orgLins : List (List String)} {pr : String × String} :
    pr ∈ rebuildPairs asmLins annLins orgLins ↔
      ∃ lin ∈ asmLins ++ annLins ++ orgLins, pr ∈ consecutivePairs lin := by
  unfold rebuildPairs
  simp only [List.mem_append, mem_lineagePairs]
  constructor
  · rintro ((⟨l, h1, h2⟩ | ⟨l, h1, h2⟩) | ⟨l, h1, h2⟩) <;> exact ⟨l, by tauto, h2⟩
  · rintro ⟨l, hl, h2⟩
    rcases hl with (hl | hl) | hl
    · exact Or.inl (Or.inl ⟨l, hl, h2⟩)
    · exact Or.inl (Or.inr ⟨l, hl, h2⟩)
    · exact Or.inr ⟨l, hl, h2⟩

theorem mem_computedChildren {pairs : List (String × String)} {p c : String} :
    c ∈ computedChildren pairs p ↔ (c, p) ∈ pairs := by
  unfold computedChildren
  rw [mem_sortAsc, List.mem_dedup]
  constructor
  · intro h
    obtain ⟨pr, hpr, rfl⟩ := List.mem_map.mp h
    obtain ⟨hmem, hp⟩ := List.mem_filter.mp hpr
    have h2 : pr.2 = p := by simpa using hp
    rw [← h2, Prod.mk.eta]
    exact hmem
  · intro h
    exact List.mem_map.mpr ⟨(c, p), List.mem_filter.mpr ⟨h, by simp⟩, rfl⟩

theorem not_mem_of_isParentIn_false {pairs : List (String × String)} {p c : String}
    (h : isParentIn pairs p = false) : (c, p) ∉ pairs := by
  intro hmem
  have h2 := List.any_eq_false.mp h (c, p) hmem
  simp at h2

theorem taxid_rebuildNode (pairs : List (String × String)) (n : TaxonNode) :
    (rebuildNode pairs n).taxid = n.taxid := by
  unfold rebuildNode
  split <;> rfl

theorem mem_children_rebuildNode {pairs : List (String × String)} {n : TaxonNode} {c : String} :
    c ∈ (rebuildNode pairs n).children ↔ (c, n.taxid) ∈ pairs := by
  unfold rebuildNode
  cases h : isParentIn pairs n.taxid
  · rw [if_neg (by simp)]
    constructor
    · intro hmem
      simp at hmem
    · intro hmem
      exact absurd hmem (not_mem_of_isParentIn_false h)
  · rw [if_pos rfl]
    exact mem_computedChildren

/-- C1: after a run of the full hierarchy rebuild over a fixed set of leaf
lineages, every persisted TaxonNode has as children exactly the taxids that
appear immediately before its own taxid in some leaf lineage: every implied
edge is present and no edge without a witnessing lineage remains (stale
children of parents no longer implied are cleared). -/
theorem rebuild_children_exact (asmLins annLins orgLins : List (List String))
    (store : List TaxonNode) (n : TaxonNode)
    (hn : n ∈ rebuild_taxon_hierarchy_from_lineages asmLins annLins orgLins store)
    (c : String) :
    c ∈ n.children ↔
      ∃ lin ∈ asmLins ++ annLins ++ orgLins, ∃ i : Nat,
        lin[i]? = some c ∧ lin[i + 1]? = some n.taxid := by
  obtain ⟨m, hm, rfl⟩ := List.mem_map.mp hn
  rw [mem_children_rebuildNode, taxid_rebuildNode]
  simp only [mem_rebuildPairs, mem_consecutivePairs]

/-- Witness for C1 at a one-lineage, one-node store. -/
theorem rebuild_children_exact_witness :
    ("4" ∈ (TaxonNode.mk "5" none "genus" ["4"] 1 2 3).children ↔
      ∃ lin ∈ [["4", "5"]] ++ ([] : List (List String)) ++ ([] : List (List String)), ∃ i : Nat,
        lin[i]? = some "4" ∧ lin[i + 1]? = some (TaxonNode.mk "5" none "genus" ["4"] 1 2 3).taxid) :=
  rebuild_children_exact [["4", "5"]] [] [] [TaxonNode.mk "5" none "genus" ["7"] 1 2 3]
    (TaxonNode.mk "5" none "genus" ["4"] 1 2 3) (by decide) "4"

/-- C2: the full rebuild is idempotent: with no change to the leaf lineages,
running it twice leaves every TaxonNode, in particular its children list,
exactly as after the first run. -/
theorem rebuild_idempotent (asmLins annLins orgLins : List (List String))
    (store : List TaxonNode) :
    rebuild_taxon_hierarchy_from_lineages asmLins annLins orgLins
        (rebuild_taxon_hierarchy_from_lineages asmLins annLins orgLins store) =
      rebuild_taxon_hierarchy_from_lineages asmLins annLins orgLins store := by
  unfold rebuild_taxon_hierarchy_from_lineages
  rw [List.map_map]
  refine List.map_congr_left fun n _ => ?_
  show rebuildNode _ (rebuildNode _ n) = rebuildNode _ n
  cases n with
  | mk t sn r ch a1 a2 a3 =>
    unfold rebuildNode
    cases h : isParentIn (rebuildPairs asmLins annLins orgLins) t <;> simp [h]


/-- C3: after the rollup-count pass, every remaining TaxonNode carries its
non-zero rolled-up annotations count (zero-rollup nodes are deleted), and no
remaining node's children contains the taxid of a deleted (zero-rollup) node
of the original store. -/
theorem update_counts_prunes (annLins asmLins orgLins : List (List String))
    (store : List TaxonNode) (n : TaxonNode)
    (hn : n ∈ update_taxon_nodes_counts annLins asmLins orgLins store) :
    n.annotations_count = unwindCount annLins n.taxid ∧
    n.annotations_count ≠ 0 ∧
    ∀ c ∈ n.children, ¬ ∃ m ∈ store, m.taxid = c ∧ unwindCount annLins m.taxid = 0 := by
  unfold update_taxon_nodes_counts at hn
  simp only [List.mem_map, List.mem_filter] at hn
  obtain ⟨m2, ⟨⟨m, hm, rfl⟩, hq⟩, rfl⟩ := hn
  refine ⟨rfl, by simpa using hq, ?_⟩
  intro c hc
  rintro ⟨m3, hm3, hteq, hcount⟩
  have hc2 := (List.mem_filter.mp hc).2
  have htd : c ∈ ((store.map (fun n =>
      { n with
        annotations_count := unwindCount annLins n.taxid,
        assemblies_count := unwindCount asmLins n.taxid,
        organisms_count := unwindCount orgLins n.taxid })).filter
        (fun x => x.annotations_count == 0)).map (fun x => x.taxid) := by
    refine List.mem_map.mpr ⟨_, List.mem_filter.mpr ⟨List.mem_map.mpr ⟨m3, hm3, rfl⟩, ?_⟩, hteq⟩
    simpa using hcount
  simp only [Bool.not_eq_true'] at hc2
  exact absurd htd (by simpa using hc2)

/-- Witness for C3 at a two-node store where exactly one node has rollup 0. -/
theorem update_counts_prunes_witness :
    (TaxonNode.mk "1" none "r" [] 1 0 0).annotations_count = unwindCount [["1"]] "1" ∧
    (TaxonNode.mk "1" none "r" [] 1 0 0).annotations_count ≠ 0 ∧
    ∀ c ∈ (TaxonNode.mk "1" none "r" [] 1 0 0).children,
      ¬ ∃ m ∈ [TaxonNode.mk "1" none "r" ["2"] 5 5 5, TaxonNode.mk "2" none "r" [] 5 5 5],
        m.taxid = c ∧ unwindCount [["1"]] m.taxid = 0 :=
  update_counts_prunes [["1"]] [] [] [TaxonNode.mk "1" none "r" ["2"] 5 5 5,
    TaxonNode.mk "2" none "r" [] 5 5 5] (TaxonNode.mk "1" none "r" [] 1 0 0) (by decide)

theorem length_add_to_set_children (s : List TaxonNode) (f c : String) :
    (add_to_set_children s f c).length = s.length :=
  List.length_map s _

theorem length_update_taxon_hierarchy : ∀ (ordered : List TaxonNode) (s : List TaxonNode),
    (update_taxon_hierarchy s ordered).length = s.length
  | [], _ => rfl
  | [_], _ => rfl
  | x :: y :: rest, s => by
    show (update_taxon_hierarchy (add_to_set_children s y.taxid x.taxid) (y :: rest)).length =
      s.length
    rw [length_update_taxon_hierarchy (y :: rest) _]
    exact length_add_to_set_children s _ _

theorem get_add_to_set_children (s : List TaxonNode) (f c : String) (i : Nat)
    (hi : i < s.length) (hi2 : i < (add_to_set_children s f c).length) :
    ((add_to_set_children s f c).get ⟨i, hi2⟩).taxid = (s.get ⟨i, hi⟩).taxid ∧
    ∃ t, ((add_to_set_children s f c).get ⟨i, hi2⟩).children = (s.get ⟨i, hi⟩).children ++ t := by
  have hg : (add_to_set_children s f c).get ⟨i, hi2⟩ =
      (if (s.get ⟨i, hi⟩).taxid == f then
        (if (s.get ⟨i, hi⟩).children.contains c then s.get ⟨i, hi⟩
         else { s.get ⟨i, hi⟩ with children := (s.get ⟨i, hi⟩).children ++ [c] })
       else s.get ⟨i, hi⟩) := by
    simp [add_to_set_children, List.get_eq_getElem, List.getElem_map]
  rw [hg]
  by_cases h1 : ((s.get ⟨i, hi⟩).taxid == f) = true
  · rw [if_pos h1]
    by_cases h2 : ((s.get ⟨i, hi⟩).children.contains c) = true
    · rw [if_pos h2]
      exact ⟨rfl, [], (List.append_nil _).symm⟩
    · rw [if_neg h2]
      exact ⟨rfl, [c], rfl⟩
  · rw [if_neg h1]
    exact ⟨rfl, [], (List.append_nil _).symm⟩

theorem get_update_taxon_hierarchy : ∀ (ordered : List TaxonNode) (s : List TaxonNode)
    (i : Nat) (hi : i < s.length) (hi2 : i < (update_taxon_hierarchy s ordered).length),
    ((update_taxon_hierarchy s ordered).get ⟨i, hi2⟩).taxid = (s.get ⟨i, hi⟩).taxid ∧
    ∃ t, ((update_taxon_hierarchy s ordered).get ⟨i, hi2⟩).children =
      (s.get ⟨i, hi⟩).children ++ t
  | [], _, _, _, _ => ⟨rfl, [], (List.append_nil _).symm⟩
  | [_], _, _, _, _ => ⟨rfl, [], (List.append_nil _).symm⟩
  | x :: y :: rest, s, i, hi, hi2 => by
    have hlen : i < (add_to_set_children s y.taxid x.taxid).length := by
      rwa [length_add_to_set_children]
    have ih := get_update_taxon_hierarchy (y :: rest)
      (add_to_set_children s y.taxid x.taxid) i hlen hi2
    have base := get_add_to_set_children s y.taxid x.taxid i hi hlen
    refine ⟨ih.1.trans base.1, ?_⟩
    obtain ⟨t1, ht1⟩ := base.2
    obtain ⟨t2, ht2⟩ := ih.2
    exact ⟨t1 ++ t2, ht2.trans (by rw [ht1, List.append_assoc])⟩

theorem mem_update_taxon_hierarchy_extends (ordered : List TaxonNode) (s : List TaxonNode)
    (n2 : TaxonNode) (hmem : n2 ∈ update_taxon_hierarchy s ordered) :
    ∃ n ∈ s, n2.taxid = n.taxid ∧ ∃ t, n2.children = n.children ++ t := by
  obtain ⟨⟨i, hi2⟩, rfl⟩ := List.mem_iff_get.mp hmem
  have hi : i < s.length := by
    have h := length_update_taxon_hierarchy ordered s
    omega
  obtain ⟨h1, t, h2⟩ := get_update_taxon_hierarchy ordered s i hi hi2
  exact ⟨s.get ⟨i, hi⟩, List.get_mem s i hi, h1, t, h2⟩

theorem mem_children_add_to_set_self (s : List TaxonNode) (f c : String) (n2 : TaxonNode)
    (hmem : n2 ∈ add_to_set_children s f c) (hf : n2.taxid = f) : c ∈ n2.children := by
  obtain ⟨n, hn, rfl⟩ := List.mem_map.mp hmem
  by_cases h1 : (n.taxid == f) = true
  · by_cases h2 : (n.children.contains c) = true
    · simp only [if_pos h1, if_pos h2] at hf ⊢
      exact List.elem_iff.mp h2
    · simp only [if_pos h1, if_neg h2] at hf ⊢
      simp
  · simp only [if_neg h1] at hf ⊢
    exact absurd (by simp [hf]) h1

theorem update_taxon_hierarchy_sets : ∀ (ordered : List TaxonNode) (s : List TaxonNode)
    (c f : String), (c, f) ∈ consecutivePairs (ordered.map (fun n => n.taxid)) →
    ∀ n2 ∈ update_taxon_hierarchy s ordered, n2.taxid = f → c ∈ n2.children
  | [], _, c, f => by simp [consecutivePairs]
  | [_], _, c, f => by simp [consecutivePairs]
  | x :: y :: rest, s, c, f => by
    intro hpr n2 hmem hf
    rcases List.mem_cons.mp hpr with h | h
    · obtain ⟨rfl, rfl⟩ := Prod.mk.injEq .. |>.mp h
      obtain ⟨n, hn, htax, t, hch⟩ := mem_update_taxon_hierarchy_extends (y :: rest)
        (add_to_set_children s y.taxid x.taxid) n2 hmem
      have hcmem := mem_children_add_to_set_self s y.taxid x.taxid n hn (htax.symm.trans hf)
      rw [hch]
      exact List.mem_append_left _ hcmem
    · exact update_taxon_hierarchy_sets (y :: rest) _ c f h n2 hmem hf

theorem add_to_set_children_noop (s : List TaxonNode) (f c : String)
    (h : ∀ n ∈ s, n.taxid = f → c ∈ n.children) : add_to_set_children s f c = s := by
  unfold add_to_set_children
  have h2 : s.map (fun n =>
      if n.taxid == f then
        (if n.children.contains c then n else { n with children := n.children ++ [c] })
      else n) = s.map id := by
    refine List.map_congr_left fun n hn => ?_
    by_cases h1 : (n.taxid == f) = true
    · rw [if_pos h1, if_pos (List.elem_iff.mpr (h n hn (by simpa using h1)))]
      rfl
    · rw [if_neg h1]
      rfl
  rw [h2, List.map_id]

theorem update_taxon_hierarchy_noop : ∀ (ordered : List TaxonNode) (s : List TaxonNode),
    (∀ pr ∈ consecutivePairs (ordered.map (fun n => n.taxid)),
      ∀ n ∈ s, n.taxid = pr.2 → pr.1 ∈ n.children) →
    update_taxon_hierarchy s ordered = s
  | [], _, _ => rfl
  | [_], _, _ => rfl
  | x :: y :: rest, s, h => by
    show update_taxon_hierarchy (add_to_set_children s y.taxid x.taxid) (y :: rest) = s
    have hadd : add_to_set_children s y.taxid x.taxid = s :=
      add_to_set_children_noop s _ _ (fun n hn hf =>
        h (x.taxid, y.taxid) (List.mem_cons_self _ _) n hn hf)
    rw [hadd]
    exact update_taxon_hierarchy_noop (y :: rest) s
      (fun pr hpr => h pr (List.mem_cons_of_mem _ hpr))

/-- C9: the incremental hierarchy patch only adds edges: the new children list
of every stored node extends the old one by appending (no entry is removed,
replaced or reordered, and taxids are untouched), adding an already-present
child leaves the store unchanged, and applying the whole patch twice equals
applying it once. -/
theorem update_hierarchy_additive (store : List TaxonNode) (ordered : List TaxonNode) :
    (∀ i, ∀ hi : i < store.length,
      ∃ hi2 : i < (update_taxon_hierarchy store ordered).length,
        ((update_taxon_hierarchy store ordered).get ⟨i, hi2⟩).taxid =
          (store.get ⟨i, hi⟩).taxid ∧
        ∃ t, ((update_taxon_hierarchy store ordered).get ⟨i, hi2⟩).children =
          (store.get ⟨i, hi⟩).children ++ t) ∧
    (∀ f c, (∀ n ∈ store, n.taxid = f → c ∈ n.children) →
      add_to_set_children store f c = store) ∧
    update_taxon_hierarchy (update_taxon_hierarchy store ordered) ordered =
      update_taxon_hierarchy store ordered := by
  refine ⟨?_, ?_, ?_⟩
  · intro i hi
    have hi2 : i < (update_taxon_hierarchy store ordered).length := by
      rw [length_update_taxon_hierarchy]
      exact hi
    exact ⟨hi2, get_update_taxon_hierarchy ordered store i hi hi2⟩
  · exact fun f c h => add_to_set_children_noop store f c h
  · refine update_taxon_hierarchy_noop ordered _ ?_
    intro pr hpr n hmem hf
    exact update_taxon_hierarchy_sets ordered store pr.1 pr.2 (by simpa using hpr) n hmem hf

/-- Witness for C9 at a two-node store and a two-element ordered lineage. -/
theorem update_hierarchy_additive_witness :
    (∃ hi2 : 0 < (update_taxon_hierarchy
        [TaxonNode.mk "a" none "r" [] 0 0 0, TaxonNode.mk "b" none "r" ["a"] 0 0 0]
        [TaxonNode.mk "a" none "r" [] 0 0 0, TaxonNode.mk "b" none "r" [] 0 0 0]).length,
      ((update_taxon_hierarchy
        [TaxonNode.mk "a" none "r" [] 0 0 0, TaxonNode.mk "b" none "r" ["a"] 0 0 0]
        [TaxonNode.mk "a" none "r" [] 0 0 0, TaxonNode.mk "b" none "r" [] 0 0 0]).get
          ⟨0, hi2⟩).taxid =
        (([TaxonNode.mk "a" none "r" [] 0 0 0, TaxonNode.mk "b" none "r" ["a"] 0 0 0]).get
          ⟨0, by decide⟩).taxid ∧
      ∃ t, ((update_taxon_hierarchy
        [TaxonNode.mk "a" none "r" [] 0 0 0, TaxonNode.mk "b" none "r" ["a"] 0 0 0]
        [TaxonNode.mk "a" none "r" [] 0 0 0, TaxonNode.mk "b" none "r" [] 0 0 0]).get
          ⟨0, hi2⟩).children =
        (([TaxonNode.mk "a" none "r" [] 0 0 0, TaxonNode.mk "b" none "r" ["a"] 0 0 0]).get
          ⟨0, by decide⟩).children ++ t) ∧
    add_to_set_children
      [TaxonNode.mk "a" none "r" [] 0 0 0, TaxonNode.mk "b" none "r" ["a"] 0 0 0] "b" "a" =
      [TaxonNode.mk "a" none "r" [] 0 0 0, TaxonNode.mk "b" none "r" ["a"] 0 0 0] :=
  ⟨(update_hierarchy_additive
      [TaxonNode.mk "a" none "r" [] 0 0 0, TaxonNode.mk "b" none "r" ["a"] 0 0 0]
      [TaxonNode.mk "a" none "r" [] 0 0 0, TaxonNode.mk "b" none "r" [] 0 0 0]).1 0 (by decide),
   (update_hierarchy_additive
      [TaxonNode.mk "a" none "r" [] 0 0 0, TaxonNode.mk "b" none "r" ["a"] 0 0 0]
      [TaxonNode.mk "a" none "r" [] 0 0 0, TaxonNode.mk "b" none "r" [] 0 0 0]).2.1 "b" "a"
      (by decide)⟩

theorem map_taxid_get_ordered_taxons (store : List TaxonNode) : ∀ taxids : List String,
    (get_ordered_taxons store taxids).map (fun n => n.taxid) =
      taxids.filter (fun t => (store.map (fun n => n.taxid)).contains t)
  | [] => rfl
  | t :: rest => by
    have ih := map_taxid_get_ordered_taxons store rest
    unfold get_ordered_taxons at ih ⊢
    cases hf : store.find? (fun n => n.taxid == t) with
    | none =>
      have hnc : t ∉ store.map (fun n => n.taxid) := by
        intro hc2
        obtain ⟨n, hn, heq⟩ := List.mem_map.mp hc2
        have h3 := List.find?_eq_none.mp hf n hn
        simp [heq] at h3
      simp only [List.filterMap_cons, hf, List.filter_cons]
      rw [if_neg (by simpa using hnc)]
      exact ih
    | some n =>
      have hteq : n.taxid = t := by simpa using List.find?_some hf
      have hmem : t ∈ store.map (fun m => m.taxid) :=
        List.mem_map.mpr ⟨n, List.mem_of_find?_eq_some hf, hteq⟩
      simp only [List.filterMap_cons, hf, List.filter_cons]
      rw [if_pos (by simpa using hmem)]
      rw [List.map_cons, ih, hteq]

/-- C10: get_ordered_taxons silently drops every lineage taxid that is absent
from the taxon store while preserving the order of the remaining ones; as a
consequence, for a lineage [a, b, c] whose middle taxid b is not stored while
a and c are, the incremental patch adds a to the children of c, an edge
between two taxids that are not consecutive in the original lineage, instead
of skipping or failing. -/
theorem get_ordered_taxons_skips_and_bridges (store : List TaxonNode) (a b c : String)
    (hb : ∀ n ∈ store, n.taxid ≠ b)
    (ha : a ∈ store.map (fun n => n.taxid)) (hc : c ∈ store.map (fun n => n.taxid)) :
    (∀ taxids : List String,
      (get_ordered_taxons store taxids).map (fun n => n.taxid) =
        taxids.filter (fun t => (store.map (fun n => n.taxid)).contains t)) ∧
    ∀ n2 ∈ update_taxon_hierarchy store (get_ordered_taxons store [a, b, c]),
      n2.taxid = c → a ∈ n2.children := by
  refine ⟨map_taxid_get_ordered_taxons store, ?_⟩
  intro n2 hmem hf
  have hbc : b ∉ store.map (fun n => n.taxid) := by
    intro hm
    obtain ⟨n, hn, heq⟩ := List.mem_map.mp hm
    exact hb n hn heq
  have hmap : (get_ordered_taxons store [a, b, c]).map (fun n => n.taxid) = [a, c] := by
    rw [map_taxid_get_ordered_taxons store [a, b, c]]
    rw [List.filter_cons, if_pos (by simpa using ha)]
    rw [List.filter_cons, if_neg (by simpa using hbc)]
    rw [List.filter_cons, if_pos (by simpa using hc)]
    rfl
  have hpair : (a, c) ∈
      consecutivePairs ((get_ordered_taxons store [a, b, c]).map (fun n => n.taxid)) := by
    rw [hmap]
    exact List.mem_cons_self _ _
  exact update_taxon_hierarchy_sets (get_ordered_taxons store [a, b, c]) store a c hpair
    n2 hmem hf

/-- Witness for C10: the middle taxid 2 of lineage [1, 2, 3] is not stored, so
after the patch 1 lands in the children of 3. -/
theorem get_ordered_taxons_skips_and_bridges_witness :
    (∀ taxids : List String,
      (get_ordered_taxons [TaxonNode.mk "1" none "r" [] 0 0 0,
          TaxonNode.mk "3" none "r" [] 0 0 0] taxids).map (fun n => n.taxid) =
        taxids.filter (fun t => (([TaxonNode.mk "1" none "r" [] 0 0 0,
          TaxonNode.mk "3" none "r" [] 0 0 0]).map (fun n => n.taxid)).contains t)) ∧
    ∀ n2 ∈ update_taxon_hierarchy
        [TaxonNode.mk "1" none "r" [] 0 0 0, TaxonNode.mk "3" none "r" [] 0 0 0]
        (get_ordered_taxons [TaxonNode.mk "1" none "r" [] 0 0 0,
          TaxonNode.mk "3" none "r" [] 0 0 0] ["1", "2", "3"]),
      n2.taxid = "3" → "1" ∈ n2.children :=
  get_ordered_taxons_skips_and_bridges
    [TaxonNode.mk "1" none "r" [] 0 0 0, TaxonNode.mk "3" none "r" [] 0 0 0]
    "1" "2" "3" (by decide) (by decide) (by decide)

theorem addAncestors_spec : ∀ (lts : List EnaElem) (o : OrganismToProcess),
    addAncestors o lts =
      { o with
        taxon_lineage := o.taxon_lineage ++ lts.filterMap keptAncestorId,
        parsed_taxon_lineage := o.parsed_taxon_lineage ++ lts.filterMap keptAncestorNode }
  | [], o => by
    cases o
    simp [addAncestors]
  | lt :: rest, o => by
    have ih := addAncestors_spec rest
    rw [addAncestors]
    by_cases hskip : (optMissing lt.taxId || lt.scientificName == some "root") = true
    · rw [if_pos hskip, ih o]
      simp [List.filterMap_cons, keptAncestorId, keptAncestorNode, hskip]
    · rw [if_neg hskip, ih _]
      cases o
      simp only [List.filterMap_cons, keptAncestorId, keptAncestorNode, if_neg hskip]
      simp [List.append_assoc]

theorem some_getD_of_not_missing (x : Option String) (h : ¬ optMissing x = true) :
    x = some (x.getD "") := by
  cases x with
  | none => simp [optMissing] at h
  | some s => rfl

/-- C8: the parser never emits a lineage entry or a TaxonNode candidate for an
ancestor whose identifier is missing or whose scientificName is the sentinel
root: every produced organism candidate comes from a top-level element with a
present identifier, its taxon_lineage is its own taxid at index 0 followed by
exactly the kept ancestors in the order received, and its parsed TaxonNode
candidates are its own organism-ranked candidate followed by exactly the kept
ancestors' candidates. -/
theorem parser_skip_rule : ∀ (tops : List EnaTop),
    ∀ o ∈ parse_taxons_and_organisms_from_ena_browser tops,
      ∃ e ∈ tops, e.taxId = some o.taxid ∧
        o.taxon_lineage = o.taxid :: e.lineage.filterMap keptAncestorId ∧
        o.parsed_taxon_lineage =
          TaxonNode.cand o.taxid e.scientificName "organism" ::
            e.lineage.filterMap keptAncestorNode
  | [] => by simp [parse_taxons_and_organisms_from_ena_browser]
  | e :: rest => by
    intro o hmem
    rw [parse_taxons_and_organisms_from_ena_browser] at hmem
    by_cases hEmpty : optMissing e.taxId = true
    · rw [if_pos hEmpty] at hmem
      obtain ⟨e2, he2, hrest⟩ := parser_skip_rule rest o hmem
      exact ⟨e2, List.mem_cons_of_mem _ he2, hrest⟩
    · rw [if_neg hEmpty] at hmem
      rcases List.mem_cons.mp hmem with h | h
      · refine ⟨e, List.mem_cons_self _ _, ?_⟩
        rw [h, addAncestors_spec e.lineage _]
        exact ⟨some_getD_of_not_missing e.taxId hEmpty, rfl, rfl⟩
      · obtain ⟨e2, he2, hrest⟩ := parser_skip_rule rest o h
        exact ⟨e2, List.mem_cons_of_mem _ he2, hrest⟩

/-- Witness for C8 at one top-level element with one kept ancestor, one
ancestor with a missing identifier and one ancestor named root. -/
theorem parser_skip_rule_witness :
    ∃ e ∈ [EnaTop.mk (some "9") (some "sp") none
        [EnaElem.mk (some "8") (some "g") (some "genus"),
         EnaElem.mk none (some "x") none,
         EnaElem.mk (some "1") (some "root") none]],
      e.taxId = some (OrganismToProcess.mk "9" (some "sp") none ["9", "8"]
        [TaxonNode.cand "9" (some "sp") "organism",
         TaxonNode.cand "8" (some "g") "genus"]).taxid ∧
      (OrganismToProcess.mk "9" (some "sp") none ["9", "8"]
        [TaxonNode.cand "9" (some "sp") "organism",
         TaxonNode.cand "8" (some "g") "genus"]).taxon_lineage =
        (OrganismToProcess.mk "9" (some "sp") none ["9", "8"]
          [TaxonNode.cand "9" (some "sp") "organism",
           TaxonNode.cand "8" (some "g") "genus"]).taxid ::
          e.lineage.filterMap keptAncestorId ∧
      (OrganismToProcess.mk "9" (some "sp") none ["9", "8"]
        [TaxonNode.cand "9" (some "sp") "organism",
         TaxonNode.cand "8" (some "g") "genus"]).parsed_taxon_lineage =
        TaxonNode.cand (OrganismToProcess.mk "9" (some "sp") none ["9", "8"]
          [TaxonNode.cand "9" (some "sp") "organism",
           TaxonNode.cand "8" (some "g") "genus"]).taxid e.scientificName "organism" ::
          e.lineage.filterMap keptAncestorNode :=
  parser_skip_rule
    [EnaTop.mk (some "9") (some "sp") none
      [EnaElem.mk (some "8") (some "g") (some "genus"),
       EnaElem.mk none (some "x") none,
       EnaElem.mk (some "1") (some "root") none]]
    (OrganismToProcess.mk "9" (some "sp") none ["9", "8"]
      [TaxonNode.cand "9" (some "sp") "organism", TaxonNode.cand "8" (some "g") "genus"])
    (by decide)

theorem save_organisms_run_conflict (store : List Organism) (batch : List Organism)
    (rest : List (List Organism))
    (h : insertConflict (store.map (fun o => o.taxid)) (batch.map (fun o => o.taxid)) = true) :
    save_organisms_run store (batch :: rest) =
      ⟨(save_organisms_run (store.filter (fun o =>
          !((batch.map (fun o => o.taxid)).contains o.taxid))) rest).store,
       (save_organisms_run (store.filter (fun o =>
          !((batch.map (fun o => o.taxid)).contains o.taxid))) rest).saved,
       (batch.map (fun o => o.taxid)) ::
         (save_organisms_run (store.filter (fun o =>
          !((batch.map (fun o => o.taxid)).contains o.taxid))) rest).failedBatches⟩ := by
  rw [save_organisms_run, if_pos h]

theorem save_organisms_run_success (store : List Organism) (batch : List Organism)
    (rest : List (List Organism))
    (h : ¬ insertConflict (store.map (fun o => o.taxid)) (batch.map (fun o => o.taxid)) = true) :
    save_organisms_run store (batch :: rest) =
      ⟨(save_organisms_run (store ++ batch) rest).store,
       (batch.map (fun o => o.taxid)) ++ (save_organisms_run (store ++ batch) rest).saved,
       (save_organisms_run (store ++ batch) rest).failedBatches⟩ := by
  rw [save_organisms_run, if_neg h]

theorem saved_sub_save_organisms_run : ∀ (bs : List (List Organism)) (store : List Organism)
    (t : String), t ∈ (save_organisms_run store bs).saved →
    t ∈ bs.flatten.map (fun o => o.taxid)
  | [], store, t => by simp [save_organisms_run]
  | batch :: rest, store, t => by
    intro ht
    simp only [List.flatten_cons, List.map_append, List.mem_append]
    by_cases hcf : insertConflict (store.map (fun o => o.taxid))
        (batch.map (fun o => o.taxid)) = true
    · rw [save_organisms_run_conflict store batch rest hcf] at ht
      exact Or.inr (saved_sub_save_organisms_run rest _ t ht)
    · rw [save_organisms_run_success store batch rest hcf] at ht
      rcases List.mem_append.mp ht with h | h
      · exact Or.inl h
      · exact Or.inr (saved_sub_save_organisms_run rest _ t h)

theorem store_sub_save_organisms_run : ∀ (bs : List (List Organism)) (store : List Organism)
    (o : Organism), o ∈ (save_organisms_run store bs).store → o ∈ store ∨ o ∈ bs.flatten
  | [], store, o => by
    intro h
    exact Or.inl h
  | batch :: rest, store, o => by
    intro ho
    simp only [List.flatten_cons, List.mem_append]
    by_cases hcf : insertConflict (store.map (fun o => o.taxid))
        (batch.map (fun o => o.taxid)) = true
    · rw [save_organisms_run_conflict store batch rest hcf] at ho
      rcases store_sub_save_organisms_run rest _ o ho with h | h
      · exact Or.inl (List.mem_of_mem_filter h)
      · exact Or.inr (Or.inr h)
    · rw [save_organisms_run_success store batch rest hcf] at ho
      rcases store_sub_save_organisms_run rest _ o ho with h | h
      · rcases List.mem_append.mp h with h2 | h2
        · exact Or.inl h2
        · exact Or.inr (Or.inl h2)
      · exact Or.inr (Or.inr h)

theorem failed_sub_save_organisms_run : ∀ (bs : List (List Organism)) (store : List Organism)
    (ids : List String), ids ∈ (save_organisms_run store bs).failedBatches →
    ids ∈ bs.map (fun b => b.map (fun o => o.taxid))
  | [], store, ids => by simp [save_organisms_run]
  | batch :: rest, store, ids => by
    intro hids
    by_cases hcf : insertConflict (store.map (fun o => o.taxid))
        (batch.map (fun o => o.taxid)) = true
    · rw [save_organisms_run_conflict store batch rest hcf] at hids
      rcases List.mem_cons.mp hids with h | h
      · rw [h]
        exact List.mem_cons_self _ _
      · exact List.mem_cons_of_mem _ (failed_sub_save_organisms_run rest _ ids h)
    · rw [save_organisms_run_success store batch rest hcf] at hids
      exact List.mem_cons_of_mem _ (failed_sub_save_organisms_run rest _ ids hids)

theorem mem_flatten_of_mem_failed (bs : List (List Organism)) (store : List Organism)
    (ids : List String) (t : String) (hids : ids ∈ (save_organisms_run store bs).failedBatches)
    (ht : t ∈ ids) : t ∈ bs.flatten.map (fun o => o.taxid) := by
  obtain ⟨b, hb, rfl⟩ := List.mem_map.mp (failed_sub_save_organisms_run bs store ids hids)
  obtain ⟨o, ho, rfl⟩ := List.mem_map.mp ht
  exact List.mem_map.mpr ⟨o, List.mem_flatten.mpr ⟨b, hb, ho⟩, rfl⟩

theorem save_organisms_run_failed_isolated : ∀ (bs : List (List Organism))
    (store : List Organism),
    (bs.flatten.map (fun o => o.taxid)).Nodup →
    ∀ ids ∈ (save_organisms_run store bs).failedBatches, ∀ t ∈ ids,
      t ∉ (save_organisms_run store bs).saved ∧
      ∀ o ∈ (save_organisms_run store bs).store, o.taxid ≠ t
  | [], store => by simp [save_organisms_run]
  | batch :: rest, store => by
    intro hnd ids hids t ht
    have hnd2 : ((batch.map (fun o => o.taxid)) ++
        (rest.flatten.map (fun o => o.taxid))).Nodup := by
      simpa [List.flatten_cons, List.map_append] using hnd
    obtain ⟨hnd1, hndr, hdisj⟩ := List.nodup_append.mp hnd2
    by_cases hcf : insertConflict (store.map (fun o => o.taxid))
        (batch.map (fun o => o.taxid)) = true
    · rw [save_organisms_run_conflict store batch rest hcf] at hids ⊢
      rcases List.mem_cons.mp hids with h | h
      · subst h
        constructor
        · intro hsaved
          exact hdisj ht (saved_sub_save_organisms_run rest _ t hsaved)
        · intro o ho
          rcases store_sub_save_organisms_run rest _ o ho with h2 | h2
          · intro heq
            have h3 := List.of_mem_filter h2
            rw [heq] at h3
            simp only [Bool.not_eq_true'] at h3
            exact absurd ht (by simpa using h3)
          · intro heq
            exact hdisj ht (heq ▸ List.mem_map.mpr ⟨o, h2, rfl⟩)
      · exact save_organisms_run_failed_isolated rest _ hndr ids h t ht
    · rw [save_organisms_run_success store batch rest hcf] at hids ⊢
      have hrec := save_organisms_run_failed_isolated rest (store ++ batch) hndr ids hids t ht
      refine ⟨?_, hrec.2⟩
      intro hsaved
      rcases List.mem_append.mp hsaved with h | h
      · exact hdisj h (mem_flatten_of_mem_failed rest _ ids t hids ht)
      · exact hrec.1 h

theorem save_taxons_run_conflict (tstore : List TaxonNode) (ostore : List Organism)
    (batch : List TaxonNode) (rest : List (List TaxonNode))
    (h : insertConflict (tstore.map (fun t => t.taxid)) (batch.map (fun t => t.taxid)) = true) :
    save_taxons_run tstore ostore (batch :: rest) =
      ⟨(save_taxons_run (tstore.filter (fun t =>
          !((batch.map (fun t => t.taxid)).contains t.taxid)))
          (ostore.filter (fun o =>
            !(o.taxon_lineage.any (fun t => (batch.map (fun t => t.taxid)).contains t))))
          rest).taxonStore,
       (save_taxons_run (tstore.filter (fun t =>
          !((batch.map (fun t => t.taxid)).contains t.taxid)))
          (ostore.filter (fun o =>
            !(o.taxon_lineage.any (fun t => (batch.map (fun t => t.taxid)).contains t))))
          rest).organismStore,
       (save_taxons_run (tstore.filter (fun t =>
          !((batch.map (fun t => t.taxid)).contains t.taxid)))
          (ostore.filter (fun o =>
            !(o.taxon_lineage.any (fun t => (batch.map (fun t => t.taxid)).contains t))))
          rest).saved,
       (batch.map (fun t => t.taxid)) ::
         (save_taxons_run (tstore.filter (fun t =>
            !((batch.map (fun t => t.taxid)).contains t.taxid)))
            (ostore.filter (fun o =>
              !(o.taxon_lineage.any (fun t => (batch.map (fun t => t.taxid)).contains t))))
            rest).failedBatches⟩ := by
  rw [save_taxons_run, if_pos h]

theorem save_taxons_run_success (tstore : List TaxonNode) (ostore : List Organism)
    (batch : List TaxonNode) (rest : List (List TaxonNode))
    (h : ¬ insertConflict (tstore.map (fun t => t.taxid))
      (batch.map (fun t => t.taxid)) = true) :
    save_taxons_run tstore ostore (batch :: rest) =
      ⟨(save_taxons_run (tstore ++ batch) ostore rest).taxonStore,
       (save_taxons_run (tstore ++ batch) ostore rest).organismStore,
       (batch.map (fun t => t.taxid)) ++ (save_taxons_run (tstore ++ batch) ostore rest).saved,
       (save_taxons_run (tstore ++ batch) ostore rest).failedBatches⟩ := by
  rw [save_taxons_run, if_neg h]

theorem saved_sub_save_taxons_run : ∀ (bs : List (List TaxonNode)) (tstore : List TaxonNode)
    (ostore : List Organism) (t : String), t ∈ (save_taxons_run tstore ostore bs).saved →
    t ∈ bs.flatten.map (fun t => t.taxid)
  | [], _, _, t => by simp [save_taxons_run]
  | batch :: rest, tstore, ostore, t => by
    intro ht
    simp only [List.flatten_cons, List.map_append, List.mem_append]
    by_cases hcf : insertConflict (tstore.map (fun t => t.taxid))
        (batch.map (fun t => t.taxid)) = true
    · rw [save_taxons_run_conflict tstore ostore batch rest hcf] at ht
      exact Or.inr (saved_sub_save_taxons_run rest _ _ t ht)
    · rw [save_taxons_run_success tstore ostore batch rest hcf] at ht
      rcases List.mem_append.mp ht with h | h
      · exact Or.inl h
      · exact Or.inr (saved_sub_save_taxons_run rest _ _ t h)

theorem tstore_sub_save_taxons_run : ∀ (bs : List (List TaxonNode)) (tstore : List TaxonNode)
    (ostore : List Organism) (n : TaxonNode), n ∈ (save_taxons_run tstore ostore bs).taxonStore →
    n ∈ tstore ∨ n ∈ bs.flatten
  | [], _, _, n => fun h => Or.inl h
  | batch :: rest, tstore, ostore, n => by
    intro hn
    simp only [List.flatten_cons, List.mem_append]
    by_cases hcf : insertConflict (tstore.map (fun t => t.taxid))
        (batch.map (fun t => t.taxid)) = true
    · rw [save_taxons_run_conflict tstore ostore batch rest hcf] at hn
      rcases tstore_sub_save_taxons_run rest _ _ n hn with h | h
      · exact Or.inl (List.mem_of_mem_filter h)
      · exact Or.inr (Or.inr h)
    · rw [save_taxons_run_success tstore ostore batch rest hcf] at hn
      rcases tstore_sub_save_taxons_run rest _ _ n hn with h | h
      · rcases List.mem_append.mp h with h2 | h2
        · exact Or.inl h2
        · exact Or.inr (Or.inl h2)
      · exact Or.inr (Or.inr h)

theorem ostore_sub_save_taxons_run : ∀ (bs : List (List TaxonNode)) (tstore : List TaxonNode)
    (ostore : List Organism) (o : Organism),
    o ∈ (save_taxons_run tstore ostore bs).organismStore → o ∈ ostore
  | [], _, _, o => fun h => h
  | batch :: rest, tstore, ostore, o => by
    intro ho
    by_cases hcf : insertConflict (tstore.map (fun t => t.taxid))
        (batch.map (fun t => t.taxid)) = true
    · rw [save_taxons_run_conflict tstore ostore batch rest hcf] at ho
      exact List.mem_of_mem_filter (ostore_sub_save_taxons_run rest _ _ o ho)
    · rw [save_taxons_run_success tstore ostore batch rest hcf] at ho
      exact ostore_sub_save_taxons_run rest _ _ o ho

theorem failed_sub_save_taxons_run : ∀ (bs : List (List TaxonNode)) (tstore : List TaxonNode)
    (ostore : List Organism) (ids : List String),
    ids ∈ (save_taxons_run tstore ostore bs).failedBatches →
    ids ∈ bs.map (fun b => b.map (fun t => t.taxid))
  | [], _, _, ids => by simp [save_taxons_run]
  | batch :: rest, tstore, ostore, ids => by
    intro hids
    by_cases hcf : insertConflict (tstore.map (fun t => t.taxid))
        (batch.map (fun t => t.taxid)) = true
    · rw [save_taxons_run_conflict tstore ostore batch rest hcf] at hids
      rcases List.mem_cons.mp hids with h | h
      · rw [h]
        exact List.mem_cons_self _ _
      · exact List.mem_cons_of_mem _ (failed_sub_save_taxons_run rest _ _ ids h)
    · rw [save_taxons_run_success tstore ostore batch rest hcf] at hids
      exact List.mem_cons_of_mem _ (failed_sub_save_taxons_run rest _ _ ids hids)

theorem mem_flatten_of_mem_failed_taxons (bs : List (List TaxonNode)) (tstore : List TaxonNode)
    (ostore : List Organism) (ids : List String) (t : String)
    (hids : ids ∈ (save_taxons_run tstore ostore bs).failedBatches) (ht : t ∈ ids) :
    t ∈ bs.flatten.map (fun t => t.taxid) := by
  obtain ⟨b, hb, rfl⟩ := List.mem_map.mp (failed_sub_save_taxons_run bs tstore ostore ids hids)
  obtain ⟨n, hn, rfl⟩ := List.mem_map.mp ht
  exact List.mem_map.mpr ⟨n, List.mem_flatten.mpr ⟨b, hb, hn⟩, rfl⟩

theorem save_taxons_run_failed_isolated : ∀ (bs : List (List TaxonNode))
    (tstore : List TaxonNode) (ostore : List Organism),
    (bs.flatten.map (fun t => t.taxid)).Nodup →
    ∀ ids ∈ (save_taxons_run tstore ostore bs).failedBatches, ∀ t ∈ ids,
      t ∉ (save_taxons_run tstore ostore bs).saved ∧
      (∀ n ∈ (save_taxons_run tstore ostore bs).taxonStore, n.taxid ≠ t) ∧
      (∀ o ∈ (save_taxons_run tstore ostore bs).organismStore, t ∉ o.taxon_lineage)
  | [], _, _ => by simp [save_taxons_run]
  | batch :: rest, tstore, ostore => by
    intro hnd ids hids t ht
    have hnd2 : ((batch.map (fun t => t.taxid)) ++
        (rest.flatten.map (fun t => t.taxid))).Nodup := by
      simpa [List.flatten_cons, List.map_append] using hnd
    obtain ⟨hnd1, hndr, hdisj⟩ := List.nodup_append.mp hnd2
    by_cases hcf : insertConflict (tstore.map (fun t => t.taxid))
        (batch.map (fun t => t.taxid)) = true
    · rw [save_taxons_run_conflict tstore ostore batch rest hcf] at hids ⊢
      rcases List.mem_cons.mp hids with h | h
      · subst h
        refine ⟨?_, ?_, ?_⟩
        · intro hsaved
          exact hdisj ht (saved_sub_save_taxons_run rest _ _ t hsaved)
        · intro n hn
          rcases tstore_sub_save_taxons_run rest _ _ n hn with h2 | h2
          · intro heq
            have h3 := List.of_mem_filter h2
            rw [heq] at h3
            simp only [Bool.not_eq_true'] at h3
            exact absurd ht (by simpa using h3)
          · intro heq
            exact hdisj ht (heq ▸ List.mem_map.mpr ⟨n, h2, rfl⟩)
        · intro o ho hlin
          have h2 := List.of_mem_filter (ostore_sub_save_taxons_run rest _ _ o ho)
          simp only [Bool.not_eq_true'] at h2
          rw [List.any_eq_false] at h2
          exact absurd (List.elem_iff.mpr ht) (by simpa using h2 t hlin)
      · exact save_taxons_run_failed_isolated rest _ _ hndr ids h t ht
    · rw [save_taxons_run_success tstore ostore batch rest hcf] at hids ⊢
      have hrec := save_taxons_run_failed_isolated rest (tstore ++ batch) ostore hndr ids hids t ht
      refine ⟨?_, hrec.2.1, hrec.2.2⟩
      intro hsaved
      rcases List.mem_append.mp hsaved with h | h
      · exact hdisj h (mem_flatten_of_mem_failed_taxons rest _ _ ids t hids ht)
      · exact hrec.1 h

theorem save_organisms_run_processes : ∀ (bs : List (List Organism)) (store : List Organism),
    ∀ b ∈ bs, (b.map (fun o => o.taxid)) ∈ (save_organisms_run store bs).failedBatches ∨
      ∀ t ∈ b.map (fun o => o.taxid), t ∈ (save_organisms_run store bs).saved
  | [], store => by simp
  | batch :: rest, store => by
    intro b hb
    by_cases hcf : insertConflict (store.map (fun o => o.taxid))
        (batch.map (fun o => o.taxid)) = true
    · rw [save_organisms_run_conflict store batch rest hcf]
      rcases List.mem_cons.mp hb with h | h
      · subst h
        exact Or.inl (List.mem_cons_self _ _)
      · rcases save_organisms_run_processes rest _ b h with h2 | h2
        · exact Or.inl (List.mem_cons_of_mem _ h2)
        · exact Or.inr h2
    · rw [save_organisms_run_success store batch rest hcf]
      rcases List.mem_cons.mp hb with h | h
      · subst h
        exact Or.inr (fun t ht => List.mem_append_left _ ht)
      · rcases save_organisms_run_processes rest _ b h with h2 | h2
        · exact Or.inl h2
        · exact Or.inr (fun t ht => List.mem_append_right _ (h2 t ht))

theorem save_taxons_run_processes : ∀ (bs : List (List TaxonNode)) (tstore : List TaxonNode)
    (ostore : List Organism),
    ∀ b ∈ bs, (b.map (fun t => t.taxid)) ∈ (save_taxons_run tstore ostore bs).failedBatches ∨
      ∀ t ∈ b.map (fun t => t.taxid), t ∈ (save_taxons_run tstore ostore bs).saved
  | [], _, _ => by simp
  | batch :: rest, tstore, ostore => by
    intro b hb
    by_cases hcf : insertConflict (tstore.map (fun t => t.taxid))
        (batch.map (fun t => t.taxid)) = true
    · rw [save_taxons_run_conflict tstore ostore batch rest hcf]
      rcases List.mem_cons.mp hb with h | h
      · subst h
        exact Or.inl (List.mem_cons_self _ _)
      · rcases save_taxons_run_processes rest _ _ b h with h2 | h2
        · exact Or.inl (List.mem_cons_of_mem _ h2)
        · exact Or.inr h2
    · rw [save_taxons_run_success tstore ostore batch rest hcf]
      rcases List.mem_cons.mp hb with h | h
      · subst h
        exact Or.inr (fun t ht => List.mem_append_left _ ht)
      · rcases save_taxons_run_processes rest _ _ b h with h2 | h2
        · exact Or.inl h2
        · exact Or.inr (fun t ht => List.mem_append_right _ (h2 t ht))

theorem flatten_chunksGo : ∀ (l : List α) (k : Nat) (acc : List α) (b : Nat),
    (chunksGo k l acc b).flatten = acc.reverse ++ l
  | [], k, acc, b => by
    rw [chunksGo]
    by_cases h : acc.isEmpty = true
    · rw [if_pos h]
      simp [List.isEmpty_iff.mp h]
    · rw [if_neg h]
      simp
  | a :: l, k, acc, 0 => by
    show (acc.reverse :: chunksGo k l [a] (k - 1)).flatten = acc.reverse ++ a :: l
    rw [List.flatten_cons, flatten_chunksGo l k [a] (k - 1)]
    simp
  | a :: l, k, acc, b + 1 => by
    show (chunksGo k l (a :: acc) b).flatten = acc.reverse ++ a :: l
    rw [flatten_chunksGo l k (a :: acc) b]
    simp

theorem flatten_create_batches (l : List α) (k : Nat) : (create_batches l k).flatten = l := by
  unfold create_batches
  rw [flatten_chunksGo]
  rfl

/-- C4 (amended): when candidate taxids are pairwise distinct across
sub-batches, a failed sub-batch is discarded whole: none of its taxids is in
the returned saved list, none remains in the affected store (the compensating
delete also removes conflicting pre-existing documents, and for a failed taxon
sub-batch every organism whose lineage references one of its taxids is deleted
too), and every other sub-batch, on the organism path as well as on the taxon
path, is still processed: it either fails itself or all of its taxids are
saved.  Without the distinctness assumption an
identifier of a failed sub-batch can remain in the saved list, inserted there
by an earlier successful sub-batch (see the counterexample). -/
theorem save_batch_failure_isolation
    (ostore : List Organism) (orgs : List OrganismToProcess) (k : Nat)
    (tstore : List TaxonNode) (ostore2 : List Organism) (tbs : List (List TaxonNode))
    (hnd : ((orgs.map OrganismToProcess.to_organism).map (fun o => o.taxid)).Nodup)
    (hndT : (tbs.flatten.map (fun t => t.taxid)).Nodup) :
    (∀ ids ∈ (save_organisms ostore orgs k).failedBatches, ∀ t ∈ ids,
       t ∉ (save_organisms ostore orgs k).saved ∧
       ∀ o ∈ (save_organisms ostore orgs k).store, o.taxid ≠ t) ∧
    (∀ b ∈ create_batches (orgs.map OrganismToProcess.to_organism) k,
       (b.map (fun o => o.taxid)) ∈ (save_organisms ostore orgs k).failedBatches ∨
       ∀ t ∈ b.map (fun o => o.taxid), t ∈ (save_organisms ostore orgs k).saved) ∧
    (∀ ids ∈ (save_taxons_run tstore ostore2 tbs).failedBatches, ∀ t ∈ ids,
       t ∉ (save_taxons_run tstore ostore2 tbs).saved ∧
       (∀ n ∈ (save_taxons_run tstore ostore2 tbs).taxonStore, n.taxid ≠ t) ∧
       (∀ o ∈ (save_taxons_run tstore ostore2 tbs).organismStore, t ∉ o.taxon_lineage)) ∧
    (∀ b ∈ tbs,
       (b.map (fun t => t.taxid)) ∈ (save_taxons_run tstore ostore2 tbs).failedBatches ∨
       ∀ t ∈ b.map (fun t => t.taxid), t ∈ (save_taxons_run tstore ostore2 tbs).saved) := by
  have hndb : ((create_batches (orgs.map OrganismToProcess.to_organism) k).flatten.map
      (fun o => o.taxid)).Nodup := by
    rw [flatten_create_batches]
    exact hnd
  exact ⟨save_organisms_run_failed_isolated _ ostore hndb,
    save_organisms_run_processes _ ostore,
    save_taxons_run_failed_isolated tbs tstore ostore2 hndT,
    save_taxons_run_processes tbs tstore ostore2⟩

/-- Witness for C4: the first organism sub-batch conflicts with a pre-existing
document and is compensated away while the second is saved; the taxon
sub-batch conflicts and takes the lineage-referencing organism with it. -/
theorem save_batch_failure_isolation_witness :
    (∀ ids ∈ (save_organisms [Organism.mk "1" none none ["1"]]
        [OrganismToProcess.mk "1" none none ["1"] [],
         OrganismToProcess.mk "2" none none ["2"] []] 1).failedBatches, ∀ t ∈ ids,
       t ∉ (save_organisms [Organism.mk "1" none none ["1"]]
        [OrganismToProcess.mk "1" none none ["1"] [],
         OrganismToProcess.mk "2" none none ["2"] []] 1).saved ∧
       ∀ o ∈ (save_organisms [Organism.mk "1" none none ["1"]]
        [OrganismToProcess.mk "1" none none ["1"] [],
         OrganismToProcess.mk "2" none none ["2"] []] 1).store, o.taxid ≠ t) ∧
    (∀ b ∈ create_batches (([OrganismToProcess.mk "1" none none ["1"] [],
         OrganismToProcess.mk "2" none none ["2"] []]).map OrganismToProcess.to_organism) 1,
       (b.map (fun o => o.taxid)) ∈ (save_organisms [Organism.mk "1" none none ["1"]]
        [OrganismToProcess.mk "1" none none ["1"] [],
         OrganismToProcess.mk "2" none none ["2"] []] 1).failedBatches ∨
       ∀ t ∈ b.map (fun o => o.taxid), t ∈ (save_organisms [Organism.mk "1" none none ["1"]]
        [OrganismToProcess.mk "1" none none ["1"] [],
         OrganismToProcess.mk "2" none none ["2"] []] 1).saved) ∧
    (∀ ids ∈ (save_taxons_run [TaxonNode.mk "5" none "r" [] 0 0 0]
        [Organism.mk "9" none none ["9", "5"]]
        [[TaxonNode.cand "5" none "r"]]).failedBatches, ∀ t ∈ ids,
       t ∉ (save_taxons_run [TaxonNode.mk "5" none "r" [] 0 0 0]
        [Organism.mk "9" none none ["9", "5"]] [[TaxonNode.cand "5" none "r"]]).saved ∧
       (∀ n ∈ (save_taxons_run [TaxonNode.mk "5" none "r" [] 0 0 0]
        [Organism.mk "9" none none ["9", "5"]] [[TaxonNode.cand "5" none "r"]]).taxonStore,
          n.taxid ≠ t) ∧
       (∀ o ∈ (save_taxons_run [TaxonNode.mk "5" none "r" [] 0 0 0]
        [Organism.mk "9" none none ["9", "5"]] [[TaxonNode.cand "5" none "r"]]).organismStore,
          t ∉ o.taxon_lineage)) ∧
    (∀ b ∈ [[TaxonNode.cand "5" none "r"]],
       (b.map (fun t => t.taxid)) ∈ (save_taxons_run [TaxonNode.mk "5" none "r" [] 0 0 0]
        [Organism.mk "9" none none ["9", "5"]] [[TaxonNode.cand "5" none "r"]]).failedBatches ∨
       ∀ t ∈ b.map (fun t => t.taxid), t ∈ (save_taxons_run [TaxonNode.mk "5" none "r" [] 0 0 0]
        [Organism.mk "9" none none ["9", "5"]] [[TaxonNode.cand "5" none "r"]]).saved) :=
  save_batch_failure_isolation [Organism.mk "1" none none ["1"]]
    [OrganismToProcess.mk "1" none none ["1"] [], OrganismToProcess.mk "2" none none ["2"] []]
    1 [TaxonNode.mk "5" none "r" [] 0 0 0] [Organism.mk "9" none none ["9", "5"]]
    [[TaxonNode.cand "5" none "r"]] (by decide) (by decide)

/-- Counterexample to C4 as stated: with the same candidate taxid in two
sub-batches, the second sub-batch fails on the duplicate key, yet its taxid
stays in the returned saved list, put there by the first, successful
sub-batch (while the compensating delete has removed the document itself). -/
theorem save_organisms_failed_id_still_saved :
    ¬ (∀ ids ∈ (save_organisms []
        [OrganismToProcess.mk "1" none none ["1"] [],
         OrganismToProcess.mk "1" none none ["1"] []] 1).failedBatches, ∀ t ∈ ids,
      t ∉ (save_organisms []
        [OrganismToProcess.mk "1" none none ["1"] [],
         OrganismToProcess.mk "1" none none ["1"] []] 1).saved) := by
  decide

theorem rhe_eq_of_lt_half (x : ℚ) (k : ℤ) (h1 : (k : ℚ) ≤ x) (h2 : x < (k : ℚ) + 1 / 2) :
    rhe x = k := by
  have hf : ⌊x⌋ = k := Int.floor_eq_iff.mpr ⟨h1, by linarith⟩
  unfold rhe
  rw [hf, if_pos (by linarith)]

theorem rhe_eq_of_gt_half (x : ℚ) (k : ℤ) (h1 : (k : ℚ) + 1 / 2 < x) (h2 : x < (k : ℚ) + 1) :
    rhe x = k + 1 := by
  have hf : ⌊x⌋ = k := Int.floor_eq_iff.mpr ⟨by linarith, h2⟩
  unfold rhe
  rw [hf, if_neg (by linarith), if_pos (by linarith)]

theorem rhe_intCast (k : ℤ) : rhe ((k : ℤ) : ℚ) = k :=
  rhe_eq_of_lt_half _ k (le_refl _) (by norm_num)

theorem roundTo2_eq_down (x : ℚ) (k : ℤ) (h1 : (k : ℚ) ≤ 100 * x)
    (h2 : 100 * x < (k : ℚ) + 1 / 2) : roundTo2 x = (k : ℚ) / 100 := by
  unfold roundTo2
  rw [rhe_eq_of_lt_half (100 * x) k h1 h2]

theorem roundTo2_eq_up (x : ℚ) (k : ℤ) (h1 : (k : ℚ) + 1 / 2 < 100 * x)
    (h2 : 100 * x < (k : ℚ) + 1) : roundTo2 x = ((k : ℚ) + 1) / 100 := by
  unfold roundTo2
  rw [rhe_eq_of_gt_half (100 * x) k h1 h2]
  push_cast
  ring

theorem roundTo2_div100 (k : ℤ) : roundTo2 ((k : ℚ) / 100) = (k : ℚ) / 100 := by
  unfold roundTo2
  rw [show (100 : ℚ) * ((k : ℚ) / 100) = ((k : ℤ) : ℚ) by ring, rhe_intCast]

theorem roundTo2_intCast (m : ℤ) : roundTo2 ((m : ℤ) : ℚ) = ((m : ℤ) : ℚ) := by
  unfold roundTo2
  rw [show (100 : ℚ) * ((m : ℤ) : ℚ) = ((100 * m : ℤ) : ℚ) by push_cast; ring, rhe_intCast]
  push_cast
  ring

theorem sqrtFloorQ_correct (y : ℚ) (K : ℕ)
    (h1 : ((K : ℚ)) ^ 2 ≤ y) (h2 : y < ((K : ℚ) + 1) ^ 2) : sqrtFloorQ y = (K : ℤ) := by
  have hy : (0 : ℚ) ≤ y := le_trans (by positivity) h1
  have hq0 : 0 < y.den := y.pos
  have hq0Q : (0 : ℚ) < (y.den : ℚ) := by exact_mod_cast hq0
  have hPy : ((y.num.toNat : ℕ) : ℚ) = y * (y.den : ℚ) := by
    have hnn : ((y.num.toNat : ℕ) : ℚ) = ((y.num : ℤ) : ℚ) := by
      exact_mod_cast congrArg (fun z : ℤ => (z : ℚ)) (Int.toNat_of_nonneg (Rat.num_nonneg.mpr hy))
    have h4 := Rat.num_div_den y
    rw [div_eq_iff (ne_of_gt hq0Q)] at h4
    rw [hnn]
    exact_mod_cast h4
  have hA : K * K * y.den ≤ y.num.toNat := by
    have hAq : ((K * K * y.den : ℕ) : ℚ) ≤ ((y.num.toNat : ℕ) : ℚ) := by
      rw [hPy]
      push_cast
      nlinarith [h1, hq0Q]
    exact_mod_cast hAq
  have hB : y.num.toNat < (K + 1) * (K + 1) * y.den := by
    have hBq : ((y.num.toNat : ℕ) : ℚ) < (((K + 1) * (K + 1) * y.den : ℕ) : ℚ) := by
      rw [hPy]
      push_cast
      nlinarith [h2, hq0Q]
    exact_mod_cast hBq
  have hm1 : K * y.den ≤ Nat.sqrt (y.num.toNat * y.den) := by
    rw [Nat.le_sqrt]
    calc K * y.den * (K * y.den) = K * K * y.den * y.den := by ring
    _ ≤ y.num.toNat * y.den := Nat.mul_le_mul_right _ hA
  have hm2 : Nat.sqrt (y.num.toNat * y.den) < (K + 1) * y.den := by
    rw [Nat.sqrt_lt]
    calc y.num.toNat * y.den < ((K + 1) * (K + 1) * y.den) * y.den :=
          (Nat.mul_lt_mul_right hq0).mpr hB
    _ = (K + 1) * y.den * ((K + 1) * y.den) := by ring
  have hdiv : Nat.sqrt (y.num.toNat * y.den) / y.den = K :=
    Nat.div_eq_of_lt_le hm1 hm2
  unfold sqrtFloorQ
  have hcast : ((Nat.sqrt (y.num.toNat * y.den) : ℤ)) / ((y.den : ℕ) : ℤ) =
      ((Nat.sqrt (y.num.toNat * y.den) / y.den : ℕ) : ℤ) := rfl
  rw [hcast, hdiv]

theorem sqrtRound2_eq_down (x : ℚ) (K : ℕ) (h1 : ((K : ℚ)) ^ 2 ≤ 10000 * x)
    (h2 : 40000 * x < (2 * (K : ℚ) + 1) ^ 2) : sqrtRound2 x = (K : ℚ) / 100 := by
  have hK : (0 : ℚ) ≤ (K : ℚ) := Nat.cast_nonneg K
  have hfl : sqrtFloorQ (10000 * x) = (K : ℤ) := by
    refine sqrtFloorQ_correct _ K h1 ?_
    nlinarith [h2, hK]
  simp only [sqrtRound2]
  rw [hfl, if_pos (by push_cast; exact h2)]
  norm_num

theorem sqrtRound2_eq_up (x : ℚ) (K : ℕ) (h1 : (2 * (K : ℚ) + 1) ^ 2 < 40000 * x)
    (h2 : 10000 * x < ((K : ℚ) + 1) ^ 2) : sqrtRound2 x = ((K : ℚ) + 1) / 100 := by
  have hK : (0 : ℚ) ≤ (K : ℚ) := Nat.cast_nonneg K
  have hfl : sqrtFloorQ (10000 * x) = (K : ℤ) := by
    refine sqrtFloorQ_correct _ K (by nlinarith [h1, hK]) h2
  simp only [sqrtRound2]
  rw [hfl, if_neg (by push_cast; linarith), if_pos (by push_cast; linarith)]
  push_cast
  ring

theorem cds_mean (v : ℤ) (vs : List ℤ) :
    (compute_distribution_stats (v :: vs)).mean = roundTo2 (meanOf (v :: vs)) := rfl

theorem cds_std (v : ℤ) (vs : List ℤ) :
    (compute_distribution_stats (v :: vs)).std = sqrtRound2 (roundedMeanVariance (v :: vs)) := rfl

theorem cds_min (v : ℤ) (vs : List ℤ) :
    (compute_distribution_stats (v :: vs)).min = vs.foldl min v := rfl

theorem cds_max (v : ℤ) (vs : List ℤ) :
    (compute_distribution_stats (v :: vs)).max = vs.foldl max v := rfl

theorem cds_n (v : ℤ) (vs : List ℤ) :
    (compute_distribution_stats (v :: vs)).n = (v :: vs).length := rfl

theorem cds_median (v : ℤ) (vs : List ℤ) :
    (compute_distribution_stats (v :: vs)).median = roundTo2 (medianOf (v :: vs)) := by
  rw [medianOf, apply_ite roundTo2]
  rfl

theorem roundTo2_roundTo2 (x : ℚ) : roundTo2 (roundTo2 x) = roundTo2 x :=
  roundTo2_div100 (rhe (100 * x))

theorem roundTo2_sqrtRound2 (x : ℚ) : roundTo2 (sqrtRound2 x) = sqrtRound2 x := by
  unfold sqrtRound2
  exact roundTo2_div100 _

/-- C5 (amended): for every non-empty integer sample, the returned median is
the standard even/odd midpoint of the sorted sample rounded to 2 decimals, the
mean is the arithmetic mean rounded to 2 decimals, and the standard deviation
is round(sqrt(v), 2) where v is the divide-by-n population variance of the
sample about the already-rounded mean, not about the exact mean (see the
counterexample); every reported statistic is a fixed point of rounding to 2
decimals (min and max are exact integers), and n is the sample size. -/
theorem compute_distribution_stats_formulas (v : ℤ) (vs : List ℤ) :
    (compute_distribution_stats (v :: vs)).mean = roundTo2 (meanOf (v :: vs)) ∧
    (compute_distribution_stats (v :: vs)).median = roundTo2 (medianOf (v :: vs)) ∧
    (compute_distribution_stats (v :: vs)).std = sqrtRound2 (roundedMeanVariance (v :: vs)) ∧
    roundTo2 (compute_distribution_stats (v :: vs)).mean =
      (compute_distribution_stats (v :: vs)).mean ∧
    roundTo2 (compute_distribution_stats (v :: vs)).median =
      (compute_distribution_stats (v :: vs)).median ∧
    roundTo2 (compute_distribution_stats (v :: vs)).std =
      (compute_distribution_stats (v :: vs)).std ∧
    roundTo2 ((compute_distribution_stats (v :: vs)).min : ℚ) =
      ((compute_distribution_stats (v :: vs)).min : ℚ) ∧
    roundTo2 ((compute_distribution_stats (v :: vs)).max : ℚ) =
      ((compute_distribution_stats (v :: vs)).max : ℚ) ∧
    (compute_distribution_stats (v :: vs)).n = (v :: vs).length := by
  refine ⟨cds_mean v vs, cds_median v vs, cds_std v vs, ?_, ?_, ?_, ?_, ?_, cds_n v vs⟩
  · rw [cds_mean]
    exact roundTo2_roundTo2 _
  · rw [cds_median]
    exact roundTo2_roundTo2 _
  · rw [cds_std]
    exact roundTo2_sqrtRound2 _
  · rw [cds_min]
    exact roundTo2_intCast _
  · rw [cds_max]
    exact roundTo2_intCast _

/-- C6: on the sample [10, 20, 30] the code returns exactly mean 20, median
20, std 8.16, min 10, max 30 and n 3. -/
theorem compute_distribution_stats_10_20_30 :
    (compute_distribution_stats [10, 20, 30]).mean = 20 ∧
    (compute_distribution_stats [10, 20, 30]).median = 20 ∧
    (compute_distribution_stats [10, 20, 30]).std = 8.16 ∧
    (compute_distribution_stats [10, 20, 30]).min = 10 ∧
    (compute_distribution_stats [10, 20, 30]).max = 30 ∧
    (compute_distribution_stats [10, 20, 30]).n = 3 := by
  have hm : meanOf [10, 20, 30] = 20 := by norm_num [meanOf]
  have hmr : roundTo2 (20 : ℚ) = 20 := by
    have h := roundTo2_eq_down 20 2000 (by norm_num) (by norm_num)
    rw [h]
    norm_num
  have hmed : medianOf [10, 20, 30] = 20 := by
    norm_num [medianOf, sortAscInt, insertAscInt, List.getD]
  have hv : roundedMeanVariance [10, 20, 30] = 200 / 3 := by
    rw [roundedMeanVariance, hm, hmr]
    norm_num
  have hs : sqrtRound2 (200 / 3 : ℚ) = 8.16 := by
    have h := sqrtRound2_eq_down (200 / 3) 816 (by norm_num) (by norm_num)
    rw [h]
    norm_num
  refine ⟨?_, ?_, ?_, ?_, ?_, rfl⟩
  · rw [cds_mean, hm, hmr]
  · rw [cds_median, hmed, hmr]
  · rw [cds_std, hv, hs]
  · rw [cds_min]
    decide
  · rw [cds_max]
    decide

/-- C7: the empty sample returns the all-zero record with n = 0; the embedding
is a total function because the empty branch returns before any division, min
or max is evaluated. -/
theorem compute_distribution_stats_empty :
    compute_distribution_stats [] = ⟨0, 0, 0, 0, 0, 0⟩ := rfl

/-- Counterexample to C5 as stated: on the sample [0, 33, 155] the code
returns std 66.67, while the population standard deviation about the exact
mean of the sample rounds to 66.66; the code measures deviations from the
rounded mean 62.67 instead of the exact mean 188/3. -/
theorem compute_distribution_stats_std_not_population :
    (compute_distribution_stats [0, 33, 155]).std ≠
      sqrtRound2 (popVariance [0, 33, 155]) := by
  have hm : meanOf [0, 33, 155] = 188 / 3 := by norm_num [meanOf]
  have hmr : roundTo2 (188 / 3 : ℚ) = 6267 / 100 := by
    have h := roundTo2_eq_up (188 / 3) 6266 (by norm_num) (by norm_num)
    rw [h]
    norm_num
  have hv : roundedMeanVariance [0, 33, 155] = 133326667 / 30000 := by
    rw [roundedMeanVariance, hm, hmr]
    norm_num
  have hs : sqrtRound2 (133326667 / 30000 : ℚ) = 6667 / 100 := by
    have h := sqrtRound2_eq_up (133326667 / 30000) 6666 (by norm_num) (by norm_num)
    rw [h]
    norm_num
  have hpv : popVariance [0, 33, 155] = 39998 / 9 := by
    rw [popVariance, hm]
    norm_num
  have hs2 : sqrtRound2 (39998 / 9 : ℚ) = 6666 / 100 := by
    have h := sqrtRound2_eq_down (39998 / 9) 6666 (by norm_num) (by norm_num)
    rw [h]
    norm_num
  rw [cds_std, hv, hs, hpv, hs2]
  norm_num

theorem sqrtFloorQ_eq_floor_sqrt (y : ℚ) (hy : 0 ≤ y) :
    sqrtFloorQ y = ⌊Real.sqrt ((y : ℚ) : ℝ)⌋ := by
  have hyR : (0 : ℝ) ≤ ((y : ℚ) : ℝ) := by exact_mod_cast hy
  have hs0 : (0 : ℝ) ≤ Real.sqrt ((y : ℚ) : ℝ) := Real.sqrt_nonneg _
  have hfl0 : 0 ≤ ⌊Real.sqrt ((y : ℚ) : ℝ)⌋ := Int.floor_nonneg.mpr hs0
  have hKval : ((⌊Real.sqrt ((y : ℚ) : ℝ)⌋.toNat : ℕ) : ℝ) =
      ((⌊Real.sqrt ((y : ℚ) : ℝ)⌋ : ℤ) : ℝ) := by
    exact_mod_cast congrArg (fun z : ℤ => (z : ℝ)) (Int.toNat_of_nonneg hfl0)
  have hlo : ((⌊Real.sqrt ((y : ℚ) : ℝ)⌋.toNat : ℕ) : ℝ) ≤ Real.sqrt ((y : ℚ) : ℝ) := by
    rw [hKval]
    exact Int.floor_le _
  have hhi : Real.sqrt ((y : ℚ) : ℝ) < ((⌊Real.sqrt ((y : ℚ) : ℝ)⌋.toNat : ℕ) : ℝ) + 1 := by
    rw [hKval]
    exact Int.lt_floor_add_one _
  have hsq : Real.sqrt ((y : ℚ) : ℝ) ^ 2 = ((y : ℚ) : ℝ) := Real.sq_sqrt hyR
  have hK0 : (0 : ℝ) ≤ ((⌊Real.sqrt ((y : ℚ) : ℝ)⌋.toNat : ℕ) : ℝ) := Nat.cast_nonneg _
  have h1R : (((⌊Real.sqrt ((y : ℚ) : ℝ)⌋.toNat : ℕ) : ℝ)) ^ 2 ≤ ((y : ℚ) : ℝ) := by
    nlinarith [hlo, hK0, hsq]
  have h2R : ((y : ℚ) : ℝ) < (((⌊Real.sqrt ((y : ℚ) : ℝ)⌋.toNat : ℕ) : ℝ) + 1) ^ 2 := by
    nlinarith [hhi, hs0, hsq]
  have h1 : ((⌊Real.sqrt ((y : ℚ) : ℝ)⌋.toNat : ℕ) : ℚ) ^ 2 ≤ y := by exact_mod_cast h1R
  have h2 : y < (((⌊Real.sqrt ((y : ℚ) : ℝ)⌋.toNat : ℕ) : ℚ) + 1) ^ 2 := by exact_mod_cast h2R
  rw [sqrtFloorQ_correct y _ h1 h2, Int.toNat_of_nonneg hfl0]

/-- The executable rounding of the square root agrees with round-half-to-even
of 100 times the real square root: writing n for the integer part of
100 * sqrt x, the result is n below the midpoint, n + 1 above it, and the even
neighbour at an exact tie, so sqrtRound2 is a faithful embedding of
round(math.sqrt x, 2) with floats idealized as reals. -/
theorem sqrtRound2_spec (x : ℚ) (hx : 0 ≤ x) :
    ∃ n : ℤ, (n : ℝ) = ((⌊(100 : ℝ) * Real.sqrt ((x : ℚ) : ℝ)⌋ : ℤ) : ℝ) ∧
      ((100 : ℝ) * Real.sqrt ((x : ℚ) : ℝ) - (n : ℝ) < 1 / 2 →
        sqrtRound2 x = (n : ℚ) / 100) ∧
      (1 / 2 < (100 : ℝ) * Real.sqrt ((x : ℚ) : ℝ) - (n : ℝ) →
        sqrtRound2 x = ((n : ℚ) + 1) / 100) ∧
      ((100 : ℝ) * Real.sqrt ((x : ℚ) : ℝ) - (n : ℝ) = 1 / 2 →
        sqrtRound2 x = (if n % 2 = 0 then (n : ℚ) else (n : ℚ) + 1) / 100) := by
  have hxR : (0 : ℝ) ≤ ((x : ℚ) : ℝ) := by exact_mod_cast hx
  have hsqrt100 : Real.sqrt (((10000 * x : ℚ)) : ℝ) = (100 : ℝ) * Real.sqrt ((x : ℚ) : ℝ) := by
    have hc : (((10000 * x : ℚ)) : ℝ) = (10000 : ℝ) * ((x : ℚ) : ℝ) := by push_cast; ring
    rw [hc, Real.sqrt_mul (by norm_num) _,
      show (10000 : ℝ) = 100 ^ 2 by norm_num, Real.sqrt_sq (by norm_num)]
  have hfl : sqrtFloorQ (10000 * x) = ⌊(100 : ℝ) * Real.sqrt ((x : ℚ) : ℝ)⌋ := by
    rw [sqrtFloorQ_eq_floor_sqrt (10000 * x) (by positivity), hsqrt100]
  refine ⟨sqrtFloorQ (10000 * x), by exact_mod_cast congrArg (fun z : ℤ => (z : ℝ)) hfl,
    ?_, ?_, ?_⟩
  all_goals
    set s : ℝ := (100 : ℝ) * Real.sqrt ((x : ℚ) : ℝ) with hs
    set n : ℤ := sqrtFloorQ (10000 * x) with hn
    have hs0 : (0 : ℝ) ≤ s := by
      rw [hs]
      positivity
    have hnlo : (n : ℝ) ≤ s := by
      rw [hfl]
      exact Int.floor_le s
    have hn0 : (0 : ℤ) ≤ n := by
      rw [hfl]
      exact Int.floor_nonneg.mpr hs0
    have hn0R : (0 : ℝ) ≤ (n : ℝ) := by exact_mod_cast hn0
    have hssq : s ^ 2 = (10000 : ℝ) * ((x : ℚ) : ℝ) := by
      rw [hs, mul_pow, Real.sq_sqrt hxR]
      norm_num
  · intro h
    have hlt : s < (n : ℝ) + 1 / 2 := by linarith
    have hsq : s ^ 2 < ((n : ℝ) + 1 / 2) ^ 2 := by nlinarith [hs0, hlt, hn0R]
    have hQ : 40000 * x < (((2 * n + 1) ^ 2 : ℤ) : ℚ) := by
      have hR : (40000 : ℝ) * ((x : ℚ) : ℝ) < (((2 * n + 1 : ℤ)) : ℝ) ^ 2 := by
        push_cast
        nlinarith [hsq, hssq]
      have hR2 : ((40000 * x : ℚ) : ℝ) < ((((2 * n + 1) ^ 2 : ℤ) : ℚ) : ℝ) := by
        push_cast
        push_cast at hR
        linarith [hR]
      exact_mod_cast hR2
    simp only [sqrtRound2]
    rw [← hn, if_pos hQ]
  · intro h
    have hgt : (n : ℝ) + 1 / 2 < s := by linarith
    have hsq : ((n : ℝ) + 1 / 2) ^ 2 < s ^ 2 := by nlinarith [hs0, hgt, hn0R]
    have hQ : (((2 * n + 1) ^ 2 : ℤ) : ℚ) < 40000 * x := by
      have hR2 : ((((2 * n + 1) ^ 2 : ℤ) : ℚ) : ℝ) < ((40000 * x : ℚ) : ℝ) := by
        push_cast
        push_cast at hsq
        nlinarith [hsq, hssq]
      exact_mod_cast hR2
    simp only [sqrtRound2]
    rw [← hn, if_neg (by exact not_lt_of_gt hQ), if_pos hQ]
    push_cast
    ring
  · intro h
    have heq : s = (n : ℝ) + 1 / 2 := by linarith
    have hsq : s ^ 2 = ((n : ℝ) + 1 / 2) ^ 2 := by rw [heq]
    have hQ : 40000 * x = (((2 * n + 1) ^ 2 : ℤ) : ℚ) := by
      have hR2 : ((40000 * x : ℚ) : ℝ) = ((((2 * n + 1) ^ 2 : ℤ) : ℚ) : ℝ) := by
        push_cast
        push_cast at hsq
        nlinarith [hsq, hssq]
      exact_mod_cast hR2
    simp only [sqrtRound2]
    rw [← hn, if_neg (by rw [hQ]; exact lt_irrefl _), if_neg (by rw [hQ]; exact lt_irrefl _)]
    by_cases hpar : n % 2 = 0
    · rw [if_pos hpar, if_pos hpar]
    · rw [if_neg hpar, if_neg hpar]
      push_cast
      ring
